import Mathlib

/-!
# SMAPI charge-threshold control (`tp_charge.c`)

A shallow embedding of `get_threshold`, `set_threshold` and `main` from
`tp_charge.c` and theorems about the request/response protocol they implement.

Modelling conventions.

* A C `int` is a Lean `Int` holding the value of the variable.  The register
  outputs of the `asm` blocks (`eax`, `ecx`, `esi`, `edi`) are `int`
  variables, so a register whose bit 31 is set is a negative `Int`; `>>` on
  `int` is the arithmetic shift (gcc on x86) and `&`, `|` act on the two's
  complement representation, which is what `>>>`, `Int.land` and `Int.lor`
  compute on `Int`.  The arithmetic that can leave the range of `int`, the
  expressions `bat+1` and `(bat+1) << 8` of the control word, wraps around
  modulo 2^32 (`to_int`), as the compiled code does on x86.
* `uint8_t` is `Fin 256`.
* One `asm volatile ("out ...; out ...")` block is one call of the firmware:
  it receives the input registers (`Request`) and produces the output
  registers (`Response`).  The firmware is a parameter: a transition function
  on a firmware state of an arbitrary type.
* Everything observable that the functions do (firmware calls, `printf`,
  `usleep`, `ioperm`, messages on `stderr`, `perror`, assignments to `errno`)
  is appended, in order, to the trace of the `World`.
* What `main` receives from outside the repository is a parameter: the
  argument list, the answers of the operating system to `ioperm`, and the C
  library function `atoi`.
-/

namespace TpCharge

/-! ## Constants -/

/-- Value of `EIO` in `<errno.h>` on Linux. -/
def EIO : Int := 5

/-- Value of `EAGAIN` in `<errno.h>` on Linux. -/
def EAGAIN : Int := 11

/-- The C global `uint16_t smapi_port1 = 0xB2;` (never assigned by the program). -/
def smapi_port1 : Int := 0xB2

/-- The C global `const uint16_t smapi_port2 = 0x4F;`. -/
def smapi_port2 : Int := 0x4F

/-! ## Data model -/

/-- C type `uint8_t`. -/
abbrev uint8_t : Type := Fin 256

/-- The value of C type `int` (32 bits, two's complement) that an integer
wraps to: the one congruent to it modulo 2^32 in the range -2^31 .. 2^31-1. -/
def to_int (x : Int) : Int :=
  (x + 0x80000000) % 0x100000000 - 0x80000000

/-- Conversion of an `int` to `uint8_t` (reduction modulo 256). -/
def to_uint8 (x : Int) : uint8_t :=
  ⟨(x % 256).toNat, by omega⟩

/-- Input registers of one SMAPI call: `edx` is the port of the first `out`
(the second `out` always goes to the immediate port `0x4F`).  A register is
given by the value of the C `int` operand placed in it. -/
structure Request where
  edx : Int
  eax : Int
  ebx : Int
  ecx : Int
  esi : Int
  edi : Int
deriving DecidableEq

/-- Registers after one SMAPI call. -/
structure Response where
  eax : Int
  ecx : Int
  esi : Int
  edi : Int
deriving DecidableEq

/-- Observable actions, in the order in which the program performs them. -/
inductive Event where
  /-- One `asm volatile` block: the request registers and the registers returned. -/
  | smapi (req : Request) (resp : Response)
  /-- The call `printf("%X %X %X\n", esi, edi, ecx)` on standard output. -/
  | printf (esi edi ecx : Int)
  /-- The call `usleep(usec)`. -/
  | usleep (usec : Nat)
  /-- The call `ioperm(first, num, turn_on)` and the value it returned. -/
  | ioperm (first num turn_on : Int) (res : Int)
  /-- The call `fprintf(stderr, msg)`. -/
  | fprintf_stderr (msg : String)
  /-- The call `perror(s)`. -/
  | perror (s : String)
  /-- The assignment `errno = v`. -/
  | errno_assign (v : Int)
  /-- The call `printf("start = %d, stop = %d\n", start, stop)` on standard output. -/
  | printf_start_stop (start stop : Int)
deriving DecidableEq

/-- The firmware behind the ports: from its state and a request it produces a
response and its next state. -/
abbrev Firmware (σ : Type) : Type := σ → Request → Response × σ

/-- State of the machine: the firmware state and what has been done so far. -/
structure World (σ : Type) where
  fw : σ
  trace : List Event

/-- One `asm volatile ("out %al, dx; out %al, $0x4F")` block. -/
def smapi_call {σ : Type} (F : Firmware σ) (req : Request) (w : World σ) :
    Response × World σ :=
  let out := F w.fw req
  (out.1, { fw := out.2, trace := w.trace ++ [Event.smapi req out.1] })

/-- The C call `usleep(usec)`. -/
def usleep {σ : Type} (usec : Nat) (w : World σ) : World σ :=
  { w with trace := w.trace ++ [Event.usleep usec] }

/-- The C call `printf("%X %X %X\n", esi, edi, ecx)`. -/
def printf_regs {σ : Type} (esi edi ecx : Int) (w : World σ) : World σ :=
  { w with trace := w.trace ++ [Event.printf esi edi ecx] }

/-! ## `get_threshold` -/

/-- Result of `get_threshold`: the returned `int`, the content of `*val` after
the call, and the world after the call. -/
structure GetResult (σ : Type) where
  ret : Int
  val : uint8_t
  world : World σ

/-- The C function `int get_threshold(int bat, int start, uint8_t *val)`; the
argument `val` is the content of `*val` before the call. -/
def get_threshold {σ : Type} (F : Firmware σ) (bat start : Int) (val : uint8_t)
    (w : World σ) : GetResult σ :=
  let r := smapi_call F
    { edx := smapi_port1, eax := 0x5380,
      ebx := if start ≠ 0 then 0x2116 else 0x211a,
      ecx := to_int (to_int (bat + 1) <<< (8 : Int)), esi := 0, edi := 0 } w
  let eax := r.1.eax
  let ecx := r.1.ecx
  let errcode := Int.land (eax >>> (8 : Nat)) 0xFF
  if errcode = 0xA6 then
    { ret := -EAGAIN, val := val, world := r.2 }
  else if errcode ≠ 0 then
    { ret := - EIO, val := val, world := r.2 }
  else if Int.land ecx 0x0100 ≠ 0x0100 then
    { ret := - EIO, val := val, world := r.2 }
  else
    { ret := 0, val := to_uint8 (Int.land ecx 0xFF), world := r.2 }

/-! ## `set_threshold` -/

/-- The C function `int set_threshold(int bat, int start, uint8_t val)`: the
returned `int` and the world after the call. -/
def set_threshold {σ : Type} (F : Firmware σ) (bat start : Int) (val : uint8_t)
    (w : World σ) : Int × World σ :=
  -- First query, but keep ESI and EDI.
  let r := smapi_call F
    { edx := smapi_port1, eax := 0x5380,
      ebx := if start ≠ 0 then 0x2116 else 0x211a,
      ecx := to_int (to_int (bat + 1) <<< (8 : Int)), esi := 0, edi := 0 } w
  let eax := r.1.eax
  let ecx := r.1.ecx
  let esi := r.1.esi
  let edi := r.1.edi
  let errcode := Int.land (eax >>> (8 : Nat)) 0xFF
  if errcode = 0xA6 then
    (-EAGAIN, r.2)
  else if errcode ≠ 0 then
    (- EIO, r.2)
  else if Int.land ecx 0x0100 ≠ 0x0100 then
    (- EIO, r.2)
  else
    let w1 := printf_regs esi edi ecx r.2
    -- Now set.
    let r2 := smapi_call F
      { edx := smapi_port1, eax := 0x5380,
        ebx := if start ≠ 0 then 0x2117 else 0x211b,
        ecx := Int.lor (to_int (to_int (bat + 1) <<< (8 : Int))) (val.val : Int),
        esi := esi, edi := edi } w1
    let eax2 := r2.1.eax
    let w2 := usleep 50000 r2.2
    let errcode2 := Int.land (eax2 >>> (8 : Nat)) 0xFF
    if errcode2 = 0xA6 then
      (-EAGAIN, w2)
    else if errcode2 ≠ 0 then
      (- EIO, w2)
    else
      (0, w2)

/-! ## Firmware models used to state the properties -/

/-- A firmware that answers every request with `r`. -/
def reply (r : Response) : Firmware Unit := fun s _ => (r, s)

/-- A firmware whose state counts the calls made so far and whose `n`-th
answer is `f n`, whatever the request. -/
def scripted (f : Nat → Response) : Firmware Nat := fun n _ => (f n, n + 1)

/-- The world before anything has happened, for a firmware state `s`. -/
def World.init {σ : Type} (s : σ) : World σ := { fw := s, trace := [] }

/-! ## Vocabulary of the specification -/

/-- Status byte of a response: bits 8-15 of the returned EAX. -/
def status_byte (eax : Int) : Int := (eax / 256) % 256

/-- Validity flag of a response: bit 8 of the returned ECX. -/
def validity_flag (ecx : Int) : Bool := Int.testBit ecx 8

/-- Low byte (bits 0-7) of a word. -/
def low_byte (x : Int) : Int := x % 256

/-- Two words have the same bits 8-15. -/
def same_bits_8_15 (x y : Int) : Prop :=
  ∀ i : Nat, 8 ≤ i → i < 16 → Int.testBit x i = Int.testBit y i

/-- The content of the 32-bit register that holds the `int` `x`, as an
unsigned number: `x` modulo 2^32. -/
def reg32 (x : Int) : Int := x % 0x100000000

/-- The control word of battery `bat` with payload byte 0: `(bat+1)*2^8` as a
32-bit `int`. -/
def control_word (bat : Int) : Int := to_int ((bat + 1) * 256)

/-- The query request of the firmware call ABI for battery `bat` and kind
`start`: entry code 0x5380, sub-function get-start or get-stop, control word
`(bat+1)*2^8` as a 32-bit `int`, zero tokens, primary port 0xB2. -/
def query_request (bat start : Int) : Request :=
  { edx := 0xB2, eax := 0x5380,
    ebx := if start ≠ 0 then 0x2116 else 0x211A,
    ecx := control_word bat, esi := 0, edi := 0 }

/-- The mutate request of the firmware call ABI: entry code 0x5380,
sub-function set-start or set-stop, the control word of the battery with
`value` as its payload byte, and the token pair `(esi, edi)`. -/
def mutate_request (bat start : Int) (value : uint8_t) (esi edi : Int) : Request :=
  { edx := 0xB2, eax := 0x5380,
    ebx := if start ≠ 0 then 0x2117 else 0x211B,
    ecx := control_word bat + (value.val : Int), esi := esi, edi := edi }

/-- The requests of the firmware calls of a trace, in order. -/
def requests : List Event → List Request
  | [] => []
  | Event.smapi req _ :: es => req :: requests es
  | _ :: es => requests es

/-- The lines written to standard output in a trace, in order. -/
def stdout_writes : List Event → List Event
  | [] => []
  | Event.printf a b c :: es => Event.printf a b c :: stdout_writes es
  | Event.printf_start_stop a b :: es => Event.printf_start_stop a b :: stdout_writes es
  | _ :: es => stdout_writes es

/-- The pauses of a trace, in order. -/
def pauses : List Event → List Nat
  | [] => []
  | Event.usleep n :: es => n :: pauses es
  | _ :: es => pauses es

/-! ## The calls of the two functions -/

/-- Response of the firmware to the query call made from world `w`. -/
def query_response {σ : Type} (F : Firmware σ) (bat start : Int) (w : World σ) : Response :=
  (F w.fw (query_request bat start)).1

/-- Firmware state after the query call made from world `w`. -/
def query_state {σ : Type} (F : Firmware σ) (bat start : Int) (w : World σ) : σ :=
  (F w.fw (query_request bat start)).2

/-- Response of the firmware to the mutate call that follows the query call
made from world `w`, with the tokens the query returned. -/
def mutate_response {σ : Type} (F : Firmware σ) (bat start : Int) (value : uint8_t)
    (w : World σ) : Response :=
  (F (query_state F bat start w)
    (mutate_request bat start value (query_response F bat start w).esi
      (query_response F bat start w).edi)).1

/-- Firmware state after that mutate call. -/
def mutate_state {σ : Type} (F : Firmware σ) (bat start : Int) (value : uint8_t)
    (w : World σ) : σ :=
  (F (query_state F bat start w)
    (mutate_request bat start value (query_response F bat start w).esi
      (query_response F bat start w).edi)).2

/-- The event of the query call made from world `w`. -/
def query_event {σ : Type} (F : Firmware σ) (bat start : Int) (w : World σ) : Event :=
  Event.smapi (query_request bat start) (query_response F bat start w)

/-- The event of the mutate call that follows the query call made from `w`. -/
def mutate_event {σ : Type} (F : Firmware σ) (bat start : Int) (value : uint8_t)
    (w : World σ) : Event :=
  Event.smapi
    (mutate_request bat start value (query_response F bat start w).esi
      (query_response F bat start w).edi)
    (mutate_response F bat start value w)

/-- The event of the `printf` of `set_threshold` after the query call made from `w`. -/
def printf_event {σ : Type} (F : Firmware σ) (bat start : Int) (w : World σ) : Event :=
  Event.printf (query_response F bat start w).esi (query_response F bat start w).edi
    (query_response F bat start w).ecx

/-- A query response passes the checks of phase 1: status 0 and validity flag set. -/
def query_ok (r : Response) : Prop :=
  status_byte r.eax = 0 ∧ validity_flag r.ecx = true

instance (r : Response) : Decidable (query_ok r) :=
  inferInstanceAs (Decidable (status_byte r.eax = 0 ∧ validity_flag r.ecx = true))

/-! ## Firmware scripts of the scenarios -/

/-- Firmware of the scenario of C3: the query is answered with status 0, the
validity flag set and tokens `(0x1234, 0x5678)`, the mutate call with status 0. -/
def scenario_script : Nat → Response
  | 0 => ⟨0, 0x0100, 0x1234, 0x5678⟩
  | _ => ⟨0, 0, 0, 0⟩

/-- Firmware that accepts the query and rejects the mutate call with status 0x53. -/
def reject_script : Nat → Response
  | 0 => ⟨0, 0x0132, 7, 9⟩
  | _ => ⟨0x5300, 0x0100, 0, 0⟩

/-- Firmware that accepts the query and answers the mutate call with the
"try again" status 0xA6. -/
def busy_script : Nat → Response
  | 0 => ⟨0, 0x0132, 7, 9⟩
  | _ => ⟨0xA600, 0, 0, 0⟩

/-- Firmware that answers the query with status 0 and the validity flag clear. -/
def invalid_script : Nat → Response
  | _ => ⟨0, 0x0032, 7, 9⟩

/-- Firmware that answers every call with status 0xA6. -/
def retry_script : Nat → Response
  | _ => ⟨0xA600, 0x0132, 7, 9⟩

/-! ## Error kinds decoded from a response -/

/-- The error kind decoded from the status byte of a response: `Retryable`
(`-EAGAIN`) for 0xA6, `ProtocolError` (`-EIO`) for another nonzero status,
success (0) for status 0. -/
def decode_status (r : Response) : Int :=
  if status_byte r.eax = 0xA6 then -EAGAIN
  else if status_byte r.eax ≠ 0 then - EIO
  else 0

/-- The error kind decoded from a query response: the one of its status byte,
and `ProtocolError` (`-EIO`) for status 0 with the validity flag clear. -/
def decode_query (r : Response) : Int :=
  if status_byte r.eax = 0xA6 then -EAGAIN
  else if status_byte r.eax ≠ 0 then - EIO
  else if validity_flag r.ecx = false then - EIO
  else 0

/-! ## A firmware that keeps the thresholds -/

/-- The battery byte of a control word: its high byte (bits 8-15). -/
def battery_byte (ecx : Int) : Int := (ecx / 256) % 256

/-- A firmware is well behaved for `stored`, the threshold byte it keeps in a
state for a battery byte and a kind (`true` for start, `false` for stop), when
it answers a get sub-function (0x2116, 0x211A) with status 0, the validity
flag set and the stored byte in the low byte of the result word, and answers a
set sub-function (0x2117, 0x211B) with status 0 while storing the low byte of
the control word for the battery of the control word's high byte. -/
structure WellBehaved {σ : Type} (F : Firmware σ) (stored : σ → Int → Bool → Int) : Prop where
  get_start : ∀ (s : σ) (req : Request), req.ebx = 0x2116 →
    status_byte (F s req).1.eax = 0 ∧ validity_flag (F s req).1.ecx = true ∧
      low_byte (F s req).1.ecx = stored s (battery_byte req.ecx) true
  get_stop : ∀ (s : σ) (req : Request), req.ebx = 0x211A →
    status_byte (F s req).1.eax = 0 ∧ validity_flag (F s req).1.ecx = true ∧
      low_byte (F s req).1.ecx = stored s (battery_byte req.ecx) false
  set_start : ∀ (s : σ) (req : Request), req.ebx = 0x2117 →
    status_byte (F s req).1.eax = 0 ∧
      stored (F s req).2 (battery_byte req.ecx) true = low_byte req.ecx
  set_stop : ∀ (s : σ) (req : Request), req.ebx = 0x211B →
    status_byte (F s req).1.eax = 0 ∧
      stored (F s req).2 (battery_byte req.ecx) false = low_byte req.ecx

/-- A firmware of this kind: its state maps a battery byte and a kind to a
number whose low byte is the threshold; unknown sub-functions get status 0x53. -/
def byte_firmware : Firmware (Int → Bool → Int) := fun s req =>
  if req.ebx = 0x2116 then
    (⟨0, 0x0100 + s (battery_byte req.ecx) true % 256, 0, 0⟩, s)
  else if req.ebx = 0x211A then
    (⟨0, 0x0100 + s (battery_byte req.ecx) false % 256, 0, 0⟩, s)
  else if req.ebx = 0x2117 then
    (⟨0, 0, 0, 0⟩,
      fun b k => if b = battery_byte req.ecx ∧ k = true then low_byte req.ecx else s b k)
  else if req.ebx = 0x211B then
    (⟨0, 0, 0, 0⟩,
      fun b k => if b = battery_byte req.ecx ∧ k = false then low_byte req.ecx else s b k)
  else
    (⟨0x5300, 0, 0, 0⟩, s)

/-- The threshold byte that `byte_firmware` keeps in a state. -/
def byte_stored (s : Int → Bool → Int) (b : Int) (k : Bool) : Int := s b k % 256

/-- A state of `byte_firmware` in which every threshold is 80. -/
def all_80 : Int → Bool → Int := fun _ _ => 80

/-! ## `main` -/

/-- The C call `ioperm(first, num, turn_on)`; `perm` is the answer of the
operating system to such a call. -/
def ioperm {σ : Type} (perm : Int → Int → Int → Int) (first num turn_on : Int)
    (w : World σ) : Int × World σ :=
  (perm first num turn_on,
    { w with trace := w.trace ++ [Event.ioperm first num turn_on (perm first num turn_on)] })

/-- The C call `fprintf(stderr, msg)`. -/
def fprintf_stderr {σ : Type} (msg : String) (w : World σ) : World σ :=
  { w with trace := w.trace ++ [Event.fprintf_stderr msg] }

/-- The C statements `errno = v; perror(s);`. -/
def errno_perror {σ : Type} (v : Int) (s : String) (w : World σ) : World σ :=
  { w with trace := w.trace ++ [Event.errno_assign v, Event.perror s] }

/-- The C call `perror(s)`. -/
def perror {σ : Type} (s : String) (w : World σ) : World σ :=
  { w with trace := w.trace ++ [Event.perror s] }

/-- The C call `printf("start = %d, stop = %d\n", (int)start, (int)stop)`. -/
def printf_start_stop {σ : Type} (start stop : uint8_t) (w : World σ) : World σ :=
  { w with trace := w.trace ++ [Event.printf_start_stop (start.val : Int) (stop.val : Int)] }

/-- The C function `int main(int argc, char **argv)`: the exit status and the
world after it.  `argv` is the argument list (`argc` is its length), `perm`
the answer of the operating system to `ioperm`, `atoi` the C library function,
and `start0`, `stop0` the indeterminate initial contents of the locals `start`
and `stop`. -/
def main {σ : Type} (F : Firmware σ) (perm : Int → Int → Int → Int) (atoi : String → Int)
    (argv : List String) (start0 stop0 : uint8_t) (w : World σ) : Int × World σ :=
  let argc : Int := (argv.length : Int)
  let w1 := fprintf_stderr "Request IO permissions.\n" w
  let p1 := ioperm perm smapi_port1 smapi_port1 1 w1
  if p1.1 ≠ 0 then
    (1, perror "ioperm" p1.2)
  else
    let p2 := ioperm perm smapi_port2 smapi_port2 1 p1.2
    if p2.1 ≠ 0 then
      (1, perror "ioperm" p2.2)
    else if argc = 1 then
      let w2 := fprintf_stderr "Get BAT0 start.\n" p2.2
      let g1 := get_threshold F 0 1 start0 w2
      if g1.ret ≠ 0 then
        (1, errno_perror (-g1.ret) "get_threshold" g1.world)
      else
        let w3 := fprintf_stderr "Get BAT0 stop.\n" g1.world
        let g2 := get_threshold F 0 0 stop0 w3
        if g2.ret ≠ 0 then
          (1, errno_perror (-g2.ret) "get_threshold" g2.world)
        else
          (0, printf_start_stop g1.val g2.val g2.world)
    else if argc = 3 then
      let start := to_uint8 (atoi (argv.getD 1 ""))
      let stop := to_uint8 (atoi (argv.getD 2 ""))
      let w2 := fprintf_stderr "Set BAT0 start.\n" p2.2
      let s1 := set_threshold F 0 1 start w2
      if s1.1 ≠ 0 then
        (1, errno_perror (-s1.1) "set_threshold" s1.2)
      else
        let w3 := fprintf_stderr "Set BAT0 stop.\n" s1.2
        let s2 := set_threshold F 0 0 stop w3
        if s2.1 ≠ 0 then
          (1, errno_perror (-s2.1) "set_threshold" s2.2)
        else
          (0, s2.2)
    else
      (0, p2.2)

/-! ## The runs of `main` -/

/-- The world of `main` after both `ioperm` calls have returned 0. -/
def granted {σ : Type} (w : World σ) : World σ :=
  { w with trace := w.trace ++
      [Event.fprintf_stderr "Request IO permissions.\n", Event.ioperm 0xB2 0xB2 1 0,
       Event.ioperm 0x4F 0x4F 1 0] }

/-- The call `set_threshold(0, 1, start)` of the set mode of `main`. -/
def start_set {σ : Type} (F : Firmware σ) (atoi : String → Int) (argv : List String)
    (w : World σ) : Int × World σ :=
  set_threshold F 0 1 (to_uint8 (atoi (argv.getD 1 "")))
    (fprintf_stderr "Set BAT0 start.\n" (granted w))

/-- The call `set_threshold(0, 0, stop)` of the set mode of `main`, made in
the world that the call for the start threshold left. -/
def stop_set {σ : Type} (F : Firmware σ) (atoi : String → Int) (argv : List String)
    (w : World σ) : Int × World σ :=
  set_threshold F 0 0 (to_uint8 (atoi (argv.getD 2 "")))
    (fprintf_stderr "Set BAT0 stop.\n" (start_set F atoi argv w).2)

/-- An operating system that refuses every `ioperm` request. -/
def deny_all : Int → Int → Int → Int := fun _ _ _ => -1

/-- An operating system that grants every `ioperm` request. -/
def grant_all : Int → Int → Int → Int := fun _ _ _ => 0

/-- An operating system that grants port 0xB2 and refuses everything else. -/
def grant_primary : Int → Int → Int → Int := fun first _ _ => if first = 0xB2 then 0 else -1

/-- The values of `atoi` on the arguments of the scenarios. -/
def atoi_table : String → Int := fun s => if s = "40" then 40 else if s = "80" then 80 else 0

/-- The argument list of the scenarios: `tp_charge 40 80`. -/
def set_args : List String := ["tp_charge", "40", "80"]

/-! ## Bit-level facts -/

theorem ldiff_255 (n : Nat) : Nat.ldiff 255 n = 255 - n % 256 := by
  apply Nat.eq_of_testBit_eq
  intro i
  have h : n % 256 < 2 ^ 8 := by omega
  have h1 := Nat.testBit_two_pow_sub_succ h i
  have e : 2 ^ 8 - (n % 256 + 1) = 255 - n % 256 := by omega
  rw [e] at h1
  rw [Nat.testBit_ldiff, h1]
  have h255 : (255 : Nat) = 2 ^ 8 - 1 := by norm_num
  have h256 : (256 : Nat) = 2 ^ 8 := by norm_num
  rw [h255, Nat.testBit_two_pow_sub_one, h256, Nat.testBit_mod_two_pow]
  by_cases hi : i < 8 <;> simp [hi]

/-- Masking an `int` with `0xFF` keeps its low byte. -/
theorem land_255 (x : Int) : Int.land x 0xFF = x % 256 := by
  cases x with
  | ofNat n =>
    show ((n &&& 255 : Nat) : Int) = _
    have h : n &&& 255 = n % 256 := Nat.and_pow_two_sub_one_eq_mod n 8
    rw [h]; rfl
  | negSucc n =>
    show ((Nat.ldiff 255 n : Nat) : Int) = _
    rw [ldiff_255, Int.negSucc_eq]
    omega

theorem ldiff_256 (n : Nat) : Nat.ldiff 256 n = if n.testBit 8 then 0 else 256 := by
  apply Nat.eq_of_testBit_eq
  intro i
  have e : Nat.testBit 256 i = decide (8 = i) := Nat.testBit_two_pow (n := 8) (m := i)
  rw [Nat.testBit_ldiff, e]
  by_cases hi : 8 = i
  · subst hi
    cases h : n.testBit 8 <;> simp [e]
  · cases h : n.testBit 8 <;> simp [hi, e]

/-- Masking an `int` with `0x0100` isolates bit 8. -/
theorem land_256 (x : Int) :
    Int.land x 0x0100 = if Int.testBit x 8 then 256 else 0 := by
  cases x with
  | ofNat n =>
    show ((n &&& 256 : Nat) : Int) = _
    have h := Nat.and_two_pow n 8
    norm_num at h
    rw [h]
    show _ = if n.testBit 8 = true then _ else _
    cases n.testBit 8 <;> simp
  | negSucc n =>
    show ((Nat.ldiff 256 n : Nat) : Int) = if (!n.testBit 8) = true then _ else _
    rw [ldiff_256]
    cases n.testBit 8 <;> simp

/-- A bit of an `int` in two's complement, arithmetically. -/
theorem testBit_iff (x : Int) (i : Nat) :
    Int.testBit x i = true ↔ (x / 2 ^ i) % 2 = 1 := by
  cases x with
  | ofNat n =>
    show n.testBit i = true ↔ _
    rw [Nat.testBit_to_div_mod, decide_eq_true_iff]
    have h : (Int.ofNat n / 2 ^ i) % 2 = ((n / 2 ^ i % 2 : Nat) : Int) := by
      push_cast; rfl
    rw [h]
    omega
  | negSucc n =>
    show (!n.testBit i) = true ↔ _
    rw [Nat.testBit_to_div_mod, Bool.not_eq_true', decide_eq_false_iff_not]
    have hpos : (0 : Int) < 2 ^ i := by positivity
    have hq : Int.negSucc n / 2 ^ i = -((n : Int) / 2 ^ i + 1) := Int.negSucc_ediv n hpos
    have h : (Int.negSucc n / 2 ^ i) % 2 = 1 - ((n / 2 ^ i % 2 : Nat) : Int) := by
      rw [hq]
      push_cast
      generalize (n : Int) / 2 ^ i = q
      omega
    rw [h]
    omega

theorem ldiff_low (j v : Nat) (hv : v < 256) :
    Nat.ldiff (2 ^ 8 * j + 255) v = 2 ^ 8 * j + (255 - v) := by
  apply Nat.eq_of_testBit_eq
  intro i
  rw [Nat.testBit_ldiff, Nat.testBit_mul_pow_two_add j (by norm_num : 255 < 2 ^ 8),
    Nat.testBit_mul_pow_two_add j (by omega : 255 - v < 2 ^ 8)]
  have e : 255 - v = 2 ^ 8 - (v + 1) := by omega
  have h255 : (255 : Nat) = 2 ^ 8 - 1 := by norm_num
  by_cases hi : i < 8
  · simp only [hi, if_true]
    rw [e, Nat.testBit_two_pow_sub_succ (by omega : v < 2 ^ 8), h255,
      Nat.testBit_two_pow_sub_one]
  · simp only [hi, if_false]
    have hvi : v.testBit i = false := by
      apply Nat.testBit_lt_two_pow
      calc v < 2 ^ 8 := by omega
        _ ≤ 2 ^ i := Nat.pow_le_pow_right (by norm_num) (by omega)
    simp [hvi]

/-- Shifting an `int` left by 8 multiplies it by 256. -/
theorem shl_8 (k : Int) : k <<< (8 : Int) = k * 256 := by
  have h := Int.shiftLeft_eq_mul_pow k 8
  simpa using h

/-- Or-ing a byte into a word whose low byte is clear adds it. -/
theorem lor_shl (k : Int) (v : Nat) (hv : v < 256) :
    Int.lor (k <<< (8 : Int)) (v : Int) = k * 256 + v := by
  cases k with
  | ofNat n =>
    have h1 : (Int.ofNat n) <<< (8 : Int) = ((n <<< 8 : Nat) : Int) :=
      Int.shiftLeft_coe_nat n 8
    rw [h1]
    show ((n <<< 8 ||| v : Nat) : Int) = _
    have h2 : n <<< 8 ||| v = n * 256 + v := by
      have h := Nat.mul_add_lt_is_or (show v < 2 ^ 8 by omega) n
      rw [Nat.shiftLeft_eq, Nat.mul_comm n (2 ^ 8), ← h]
    rw [h2]
    push_cast
    rfl
  | negSucc n =>
    have h1 : (Int.negSucc n) <<< (8 : Int) = Int.negSucc (Nat.shiftLeft' true n 8) :=
      Int.shiftLeft_negSucc n 8
    rw [h1]
    show Int.negSucc (Nat.ldiff (Nat.shiftLeft' true n 8) v) = _
    have h2 := Nat.shiftLeft'_tt_eq_mul_pow n 8
    have h3 : Nat.shiftLeft' true n 8 = 2 ^ 8 * n + 255 := by omega
    rw [h3, ldiff_low n v hv, Int.negSucc_eq, Int.negSucc_eq]
    push_cast
    omega

/-- The expression `(eax >> 8) & 0xFF` is the status byte. -/
theorem errcode_eq (eax : Int) : Int.land (eax >>> (8 : Nat)) 0xFF = status_byte eax := by
  rw [land_255, Int.shiftRight_eq_div_pow]
  rfl

/-- The test `(ecx & 0x0100) != 0x0100` is the test that the validity flag is clear. -/
theorem flag_test (ecx : Int) :
    Int.land ecx 0x0100 ≠ 0x0100 ↔ validity_flag ecx = false := by
  rw [land_256]
  unfold validity_flag
  cases Int.testBit ecx 8 <;> simp

/-- The status byte in terms of bits 8-15. -/
theorem status_byte_bits (x : Int) :
    status_byte x =
      (x / 2 ^ 8) % 2 + 2 * ((x / 2 ^ 9) % 2) + 4 * ((x / 2 ^ 10) % 2)
        + 8 * ((x / 2 ^ 11) % 2) + 16 * ((x / 2 ^ 12) % 2) + 32 * ((x / 2 ^ 13) % 2)
        + 64 * ((x / 2 ^ 14) % 2) + 128 * ((x / 2 ^ 15) % 2) := by
  unfold status_byte
  norm_num
  omega

theorem bit_congr (x y : Int) (i : Nat) (h : Int.testBit x i = Int.testBit y i) :
    (x / 2 ^ i) % 2 = (y / 2 ^ i) % 2 := by
  have hx := testBit_iff x i
  have hy := testBit_iff y i
  rw [h] at hx
  have hxy : (x / 2 ^ i) % 2 = 1 ↔ (y / 2 ^ i) % 2 = 1 := hx.symm.trans hy
  omega

/-- Words with the same bits 8-15 have the same status byte. -/
theorem status_byte_congr (x y : Int) (h : same_bits_8_15 x y) :
    status_byte x = status_byte y := by
  rw [status_byte_bits x, status_byte_bits y,
    bit_congr x y 8 (h 8 (by omega) (by omega)), bit_congr x y 9 (h 9 (by omega) (by omega)),
    bit_congr x y 10 (h 10 (by omega) (by omega)),
    bit_congr x y 11 (h 11 (by omega) (by omega)),
    bit_congr x y 12 (h 12 (by omega) (by omega)),
    bit_congr x y 13 (h 13 (by omega) (by omega)),
    bit_congr x y 14 (h 14 (by omega) (by omega)),
    bit_congr x y 15 (h 15 (by omega) (by omega))]

/-- The byte stored by `*val = ecx & 0xFF`. -/
theorem stored_byte (ecx : Int) :
    ((to_uint8 (Int.land ecx 0xFF)).val : Int) = low_byte ecx := by
  rw [land_255]
  unfold to_uint8 low_byte
  simp only
  omega

/-! ## The two functions, case by case -/

/-- The expression `(bat+1) << 8` in 32-bit arithmetic is the control word. -/
theorem shl_control_word (bat : Int) :
    to_int (to_int (bat + 1) <<< (8 : Int)) = control_word bat := by
  rw [shl_8]
  unfold control_word to_int
  omega

/-- The control word is an `int` whose low byte is 0. -/
theorem control_word_range (bat : Int) :
    -0x80000000 ≤ control_word bat ∧ control_word bat < 0x80000000 ∧
    control_word bat % 256 = 0 := by
  unfold control_word to_int
  omega

/-- The register that holds the control word contains `(bat+1)*2^8` modulo 2^32. -/
theorem control_word_reg32 (bat : Int) :
    reg32 (control_word bat) = ((bat + 1) * 256) % 0x100000000 := by
  unfold reg32 control_word to_int
  omega

/-- Without overflow the control word is `(bat+1)*2^8`. -/
theorem control_word_exact (bat : Int) (h0 : -0x800000 ≤ bat + 1) (h1 : bat + 1 < 0x800000) :
    control_word bat = (bat + 1) * 256 := by
  unfold control_word to_int
  omega

/-- The expression `((bat+1) << 8) | val` in 32-bit arithmetic is the control
word plus the payload byte. -/
theorem lor_control_word (bat : Int) (v : Nat) (hv : v < 256) :
    Int.lor (to_int (to_int (bat + 1) <<< (8 : Int))) (v : Int) = control_word bat + v := by
  have hr := (control_word_range bat).2.2
  have hk : control_word bat = (control_word bat / 256) * 256 := by omega
  rw [shl_control_word]
  conv_lhs => rw [hk, ← shl_8]
  rw [lor_shl _ v hv]
  omega

theorem query_regs (bat start : Int) :
    ({ edx := smapi_port1, eax := 0x5380,
       ebx := if start ≠ 0 then 0x2116 else 0x211a,
       ecx := to_int (to_int (bat + 1) <<< (8 : Int)), esi := 0, edi := 0 } : Request)
      = query_request bat start := by
  simp [query_request, smapi_port1, shl_control_word]

theorem mutate_regs (bat start : Int) (value : uint8_t) (esi edi : Int) :
    ({ edx := smapi_port1, eax := 0x5380,
       ebx := if start ≠ 0 then 0x2117 else 0x211b,
       ecx := Int.lor (to_int (to_int (bat + 1) <<< (8 : Int))) (value.val : Int),
       esi := esi, edi := edi } : Request)
      = mutate_request bat start value esi edi := by
  simp [mutate_request, smapi_port1, lor_control_word bat value.val value.isLt]

/-- The function `get_threshold`, case by case. -/
theorem get_threshold_cases {σ : Type} (F : Firmware σ) (bat start : Int) (val : uint8_t)
    (w : World σ) :
    get_threshold F bat start val w =
      if status_byte (query_response F bat start w).eax = 0xA6 then
        { ret := -EAGAIN, val := val,
          world := ⟨query_state F bat start w, w.trace ++ [query_event F bat start w]⟩ }
      else if status_byte (query_response F bat start w).eax ≠ 0 then
        { ret := - EIO, val := val,
          world := ⟨query_state F bat start w, w.trace ++ [query_event F bat start w]⟩ }
      else if validity_flag (query_response F bat start w).ecx = false then
        { ret := - EIO, val := val,
          world := ⟨query_state F bat start w, w.trace ++ [query_event F bat start w]⟩ }
      else
        { ret := 0, val := to_uint8 (Int.land (query_response F bat start w).ecx 0xFF),
          world := ⟨query_state F bat start w, w.trace ++ [query_event F bat start w]⟩ } := by
  unfold get_threshold smapi_call
  simp only [query_regs, errcode_eq, flag_test]
  rfl

/-- The function `set_threshold`, case by case. -/
theorem set_threshold_cases {σ : Type} (F : Firmware σ) (bat start : Int) (val : uint8_t)
    (w : World σ) :
    set_threshold F bat start val w =
      if status_byte (query_response F bat start w).eax = 0xA6 then
        (-EAGAIN, ⟨query_state F bat start w, w.trace ++ [query_event F bat start w]⟩)
      else if status_byte (query_response F bat start w).eax ≠ 0 then
        (- EIO, ⟨query_state F bat start w, w.trace ++ [query_event F bat start w]⟩)
      else if validity_flag (query_response F bat start w).ecx = false then
        (- EIO, ⟨query_state F bat start w, w.trace ++ [query_event F bat start w]⟩)
      else if status_byte (mutate_response F bat start val w).eax = 0xA6 then
        (-EAGAIN, ⟨mutate_state F bat start val w,
          w.trace ++ [query_event F bat start w, printf_event F bat start w,
            mutate_event F bat start val w, Event.usleep 50000]⟩)
      else if status_byte (mutate_response F bat start val w).eax ≠ 0 then
        (- EIO, ⟨mutate_state F bat start val w,
          w.trace ++ [query_event F bat start w, printf_event F bat start w,
            mutate_event F bat start val w, Event.usleep 50000]⟩)
      else
        (0, ⟨mutate_state F bat start val w,
          w.trace ++ [query_event F bat start w, printf_event F bat start w,
            mutate_event F bat start val w, Event.usleep 50000]⟩) := by
  unfold set_threshold smapi_call usleep printf_regs
  simp only [query_regs, mutate_regs, errcode_eq, flag_test, List.append_assoc,
    List.singleton_append]
  rfl

/-- The trace after `get_threshold`: one firmware call is added. -/
theorem get_threshold_trace {σ : Type} (F : Firmware σ) (bat start : Int) (val : uint8_t)
    (w : World σ) :
    (get_threshold F bat start val w).world.trace = w.trace ++ [query_event F bat start w] := by
  rw [get_threshold_cases]
  split_ifs <;> rfl

/-- The firmware state after `get_threshold`. -/
theorem get_threshold_fw {σ : Type} (F : Firmware σ) (bat start : Int) (val : uint8_t)
    (w : World σ) :
    (get_threshold F bat start val w).world.fw = query_state F bat start w := by
  rw [get_threshold_cases]
  split_ifs <;> rfl

/-- The result of `get_threshold` is 0 exactly when the query response is usable. -/
theorem get_threshold_ret_zero {σ : Type} (F : Firmware σ) (bat start : Int) (val : uint8_t)
    (w : World σ) :
    (get_threshold F bat start val w).ret = 0 ↔ query_ok (query_response F bat start w) := by
  rw [get_threshold_cases]
  unfold query_ok
  split_ifs with h1 h2 h3 <;> simp_all [EAGAIN, EIO]

/-- The checks of phase 1, as the conditions of the case distinction. -/
theorem query_ok_iff (r : Response) :
    query_ok r ↔ ¬ status_byte r.eax = 0xA6 ∧ ¬ status_byte r.eax ≠ 0
      ∧ ¬ validity_flag r.ecx = false := by
  unfold query_ok
  constructor
  · rintro ⟨h1, h2⟩
    simp [h1, h2]
  · rintro ⟨_, h2, h3⟩
    exact ⟨not_not.mp h2, by simpa using h3⟩

/-- The result code that `set_threshold` decodes from the mutate response. -/
theorem set_threshold_ret_ok {σ : Type} (F : Firmware σ) (bat start : Int) (val : uint8_t)
    (w : World σ) (hq : query_ok (query_response F bat start w)) :
    (set_threshold F bat start val w).1 =
      if status_byte (mutate_response F bat start val w).eax = 0xA6 then -EAGAIN
      else if status_byte (mutate_response F bat start val w).eax ≠ 0 then - EIO
      else 0 := by
  obtain ⟨h1, h2, h3⟩ := (query_ok_iff _).mp hq
  rw [set_threshold_cases, if_neg h1, if_neg h2, if_neg h3]
  split_ifs <;> rfl

/-- The trace of `set_threshold` when phase 1 succeeds. -/
theorem set_threshold_trace_ok {σ : Type} (F : Firmware σ) (bat start : Int) (val : uint8_t)
    (w : World σ) (hq : query_ok (query_response F bat start w)) :
    (set_threshold F bat start val w).2.trace =
      w.trace ++ [query_event F bat start w, printf_event F bat start w,
        mutate_event F bat start val w, Event.usleep 50000] := by
  obtain ⟨h1, h2, h3⟩ := (query_ok_iff _).mp hq
  rw [set_threshold_cases, if_neg h1, if_neg h2, if_neg h3]
  split_ifs <;> rfl

/-- The firmware state after `set_threshold` when phase 1 succeeds. -/
theorem set_threshold_fw_ok {σ : Type} (F : Firmware σ) (bat start : Int) (val : uint8_t)
    (w : World σ) (hq : query_ok (query_response F bat start w)) :
    (set_threshold F bat start val w).2.fw = mutate_state F bat start val w := by
  obtain ⟨h1, h2, h3⟩ := (query_ok_iff _).mp hq
  rw [set_threshold_cases, if_neg h1, if_neg h2, if_neg h3]
  split_ifs <;> rfl

/-- When phase 1 fails, `set_threshold` ends as `get_threshold` does. -/
theorem set_threshold_abort {σ : Type} (F : Firmware σ) (bat start : Int) (val old : uint8_t)
    (w : World σ) (hq : ¬ query_ok (query_response F bat start w)) :
    (set_threshold F bat start val w).1 = (get_threshold F bat start old w).ret ∧
    (set_threshold F bat start val w).2.trace = w.trace ++ [query_event F bat start w] ∧
    (set_threshold F bat start val w).2.fw = query_state F bat start w := by
  rw [query_ok_iff] at hq
  rw [set_threshold_cases, get_threshold_cases]
  split_ifs with h1 h2 h3 <;> first | exact ⟨rfl, rfl, rfl⟩ | exact absurd ⟨h1, h2, h3⟩ hq

theorem requests_append (a b : List Event) : requests (a ++ b) = requests a ++ requests b := by
  induction a with
  | nil => rfl
  | cons e es ih => cases e <;> simp [requests, ih]

theorem stdout_writes_append (a b : List Event) :
    stdout_writes (a ++ b) = stdout_writes a ++ stdout_writes b := by
  induction a with
  | nil => rfl
  | cons e es ih => cases e <;> simp [stdout_writes, ih]

theorem pauses_append (a b : List Event) : pauses (a ++ b) = pauses a ++ pauses b := by
  induction a with
  | nil => rfl
  | cons e es ih => cases e <;> simp [pauses, ih]

/-! ## Properties of `get_threshold` -/

/-- C1: `get_threshold` classifies the response of its firmware call by the
status byte (bits 8-15 of the returned EAX) and the validity flag (bit 8 of
the returned ECX).  The call it records in the trace is answered by
`query_response`; the result is `-EAGAIN` exactly when the status byte is
0xA6, `- EIO` exactly when the status byte is nonzero and not 0xA6 or it is 0
with the flag clear, and `0` exactly when the status byte is 0 with the flag
set.  A response that has the same bits 8-15 in EAX and the same ECX gives
the same result and the same stored value, whatever its other EAX bits. -/
theorem get_threshold_classification {σ : Type} (F : Firmware σ) (bat start : Int)
    (val : uint8_t) (w : World σ) :
    (get_threshold F bat start val w).world.trace
        = w.trace ++ [Event.smapi (query_request bat start) (query_response F bat start w)] ∧
    ((get_threshold F bat start val w).ret = -EAGAIN
        ↔ status_byte (query_response F bat start w).eax = 0xA6) ∧
    ((get_threshold F bat start val w).ret = - EIO
        ↔ (status_byte (query_response F bat start w).eax ≠ 0
            ∧ status_byte (query_response F bat start w).eax ≠ 0xA6)
          ∨ (status_byte (query_response F bat start w).eax = 0
            ∧ validity_flag (query_response F bat start w).ecx = false)) ∧
    ((get_threshold F bat start val w).ret = 0
        ↔ status_byte (query_response F bat start w).eax = 0
          ∧ validity_flag (query_response F bat start w).ecx = true) ∧
    (∀ (τ : Type) (G : Firmware τ) (u : World τ),
        same_bits_8_15 (query_response G bat start u).eax (query_response F bat start w).eax →
        (query_response G bat start u).ecx = (query_response F bat start w).ecx →
        (get_threshold G bat start val u).ret = (get_threshold F bat start val w).ret
          ∧ (get_threshold G bat start val u).val = (get_threshold F bat start val w).val) := by
  refine ⟨?_, ?_, ?_, ?_, ?_⟩
  · rw [get_threshold_cases]
    unfold query_event
    split_ifs <;> rfl
  · rw [get_threshold_cases]
    split_ifs with h1 h2 h3 <;> simp [EAGAIN, EIO, h1]
  · rw [get_threshold_cases]
    split_ifs with h1 h2 h3 <;> simp_all [EAGAIN, EIO]
  · rw [get_threshold_cases]
    split_ifs with h1 h2 h3 <;> simp_all [EAGAIN, EIO]
  · intro τ G u hbits hecx
    have hs := status_byte_congr _ _ hbits
    rw [get_threshold_cases, get_threshold_cases, hs, hecx]
    split_ifs <;> exact ⟨rfl, rfl⟩

/-- C2: whenever `get_threshold` succeeds, the byte it stores through `val` is
the low byte of the returned ECX (so a low byte 0 is stored as 0); with result
word 0x0105 the stored value is 5. -/
theorem get_threshold_value {σ : Type} (F : Firmware σ) (bat start : Int)
    (val : uint8_t) (w : World σ)
    (h : (get_threshold F bat start val w).ret = 0) :
    (((get_threshold F bat start val w).val).val : Int)
        = low_byte (query_response F bat start w).ecx ∧
    (low_byte (query_response F bat start w).ecx = 0
        → (get_threshold F bat start val w).val = 0) ∧
    ((query_response F bat start w).ecx = 0x0105
        → (get_threshold F bat start val w).val = 5) := by
  have hv : (((get_threshold F bat start val w).val).val : Int)
      = low_byte (query_response F bat start w).ecx := by
    rw [get_threshold_cases] at h ⊢
    split_ifs at h ⊢ with h1 h2 h3
    · simp [EAGAIN] at h
    · simp [ EIO] at h
    · simp [ EIO] at h
    · exact stored_byte _
  refine ⟨hv, ?_, ?_⟩
  · intro h0
    rw [h0] at hv
    apply Fin.ext
    have : (((get_threshold F bat start val w).val).val : Int) = ((0 : Nat) : Int) := by
      simpa using hv
    exact_mod_cast this
  · intro h5
    rw [h5] at hv
    apply Fin.ext
    have : (((get_threshold F bat start val w).val).val : Int) = ((5 : Nat) : Int) := by
      rw [hv]; decide
    exact_mod_cast this

/-- Witness of C2: battery 1, start threshold, status 0 and result word 0x0105
give success with value 5. -/
theorem get_threshold_value_witness :
    (get_threshold (reply ⟨0, 0x0105, 0, 0⟩) 1 1 0 (World.init ())).ret = 0 ∧
    (get_threshold (reply ⟨0, 0x0105, 0, 0⟩) 1 1 0 (World.init ())).val = 5 :=
  ⟨by decide,
    (get_threshold_value (reply ⟨0, 0x0105, 0, 0⟩) 1 1 0 (World.init ()) (by decide)).2.2
      (by decide)⟩

/-- C4: the single firmware call of `get_threshold` goes to port 0xB2 with
entry code 0x5380, sub-function 0x2116 for start and 0x211A for stop, control
word `(bat+1) << 8` computed in 32-bit `int` arithmetic and both tokens 0; it
is the only event that `get_threshold` adds to the trace.  The register that
holds the control word contains `(bat+1) * 2^8` modulo 2^32, the control word
is `(bat+1) * 2^8` itself when that fits an `int`, and its low byte (the
payload byte) is 0 for every `bat`. -/
theorem get_threshold_request {σ : Type} (F : Firmware σ) (bat start : Int)
    (val : uint8_t) (w : World σ) :
    (get_threshold F bat start val w).world.trace
        = w.trace ++
          [Event.smapi
            { edx := 0xB2, eax := 0x5380, ebx := if start ≠ 0 then 0x2116 else 0x211A,
              ecx := to_int (to_int (bat + 1) <<< (8 : Int)), esi := 0, edi := 0 }
            (F w.fw
              { edx := 0xB2, eax := 0x5380, ebx := if start ≠ 0 then 0x2116 else 0x211A,
                ecx := to_int (to_int (bat + 1) <<< (8 : Int)), esi := 0, edi := 0 }).1] ∧
    reg32 (to_int (to_int (bat + 1) <<< (8 : Int))) = ((bat + 1) * 2 ^ 8) % 2 ^ 32 ∧
    (-2 ^ 23 ≤ bat + 1 → bat + 1 < 2 ^ 23 →
      to_int (to_int (bat + 1) <<< (8 : Int)) = (bat + 1) * 2 ^ 8) ∧
    (-2 ^ 31 ≤ to_int (to_int (bat + 1) <<< (8 : Int))
      ∧ to_int (to_int (bat + 1) <<< (8 : Int)) < 2 ^ 31) ∧
    low_byte (to_int (to_int (bat + 1) <<< (8 : Int))) = 0 := by
  have hr := control_word_range bat
  refine ⟨?_, ?_, ?_, ?_, ?_⟩
  · rw [get_threshold_trace]
    simp [query_event, query_request, query_response, shl_control_word]
  · rw [shl_control_word, control_word_reg32]
    norm_num
  · intro h0 h1
    rw [shl_control_word, control_word_exact bat (by norm_num at h0; omega)
      (by norm_num at h1; omega)]
    norm_num
  · rw [shl_control_word]
    norm_num
    omega
  · rw [shl_control_word]
    unfold low_byte
    exact hr.2.2

/-- Witness of C4: the control word at the ends of the range.  For
`bat = 8388607` it is the `int` -2^31 (register content 0x80000000), for
`bat = 2147483647` it is 0, and for battery index 1 it is 0x0200. -/
theorem get_threshold_request_witness :
    requests (get_threshold (reply ⟨0, 0x0105, 0, 0⟩) 8388607 1 0 (World.init ())).world.trace
        = [{ edx := 0xB2, eax := 0x5380, ebx := 0x2116, ecx := -0x80000000,
             esi := 0, edi := 0 }] ∧
    (requests
        (get_threshold (reply ⟨0, 0x0105, 0, 0⟩) 8388607 1 0 (World.init ())).world.trace).map
      (fun r => reg32 r.ecx) = [0x80000000] ∧
    requests (get_threshold (reply ⟨0, 0x0105, 0, 0⟩) 2147483647 1 0 (World.init ())).world.trace
        = [{ edx := 0xB2, eax := 0x5380, ebx := 0x2116, ecx := 0, esi := 0, edi := 0 }] ∧
    requests (get_threshold (reply ⟨0, 0x0105, 0, 0⟩) 1 0 0 (World.init ())).world.trace
        = [{ edx := 0xB2, eax := 0x5380, ebx := 0x211A, ecx := 0x0200, esi := 0, edi := 0 }] :=
  ⟨by rw [(get_threshold_request (reply ⟨0, 0x0105, 0, 0⟩) 8388607 1 0 (World.init ())).1]
      decide,
   by rw [(get_threshold_request (reply ⟨0, 0x0105, 0, 0⟩) 8388607 1 0 (World.init ())).1]
      decide,
   by rw [(get_threshold_request (reply ⟨0, 0x0105, 0, 0⟩) 2147483647 1 0 (World.init ())).1]
      decide,
   by rw [(get_threshold_request (reply ⟨0, 0x0105, 0, 0⟩) 1 0 0 (World.init ())).1]
      decide⟩

/-! ## Properties of `set_threshold` -/

/-- C3: when phase 1 succeeds, `set_threshold` adds to the trace the query
call, the `printf`, the mutate call and the pause; the mutate request has port
0xB2, entry code 0x5380, sub-function 0x2117 for start and 0x211B for stop,
control word `((bat+1) << 8) | value` computed in 32-bit `int` arithmetic and
as tokens the `(ESI, EDI)` pair of the query response, in this order.  The
register that holds the control word contains `(bat+1) * 2^8 + value` modulo
2^32, the control word is `(bat+1) * 2^8 + value` itself when `(bat+1) * 2^8`
fits an `int`, and its low byte is `value` for every `bat`.  For battery 1,
stop, value 0 the requests are the query and the mutate request with control
word 0x0200 and the tokens of the query, and mutate status 0 gives result 0. -/
theorem set_threshold_mutate_request {σ : Type} (F : Firmware σ) (bat start : Int)
    (val : uint8_t) (w : World σ) (hq : query_ok (query_response F bat start w)) :
    (set_threshold F bat start val w).2.trace
        = w.trace ++
          [Event.smapi (query_request bat start) (query_response F bat start w),
           Event.printf (query_response F bat start w).esi (query_response F bat start w).edi
             (query_response F bat start w).ecx,
           Event.smapi
             { edx := 0xB2, eax := 0x5380, ebx := if start ≠ 0 then 0x2117 else 0x211B,
               ecx := Int.lor (to_int (to_int (bat + 1) <<< (8 : Int))) (val.val : Int),
               esi := (query_response F bat start w).esi,
               edi := (query_response F bat start w).edi }
             (mutate_response F bat start val w),
           Event.usleep 50000] ∧
    (reg32 (Int.lor (to_int (to_int (bat + 1) <<< (8 : Int))) (val.val : Int))
        = ((bat + 1) * 2 ^ 8 + (val.val : Int)) % 2 ^ 32 ∧
     (-2 ^ 23 ≤ bat + 1 → bat + 1 < 2 ^ 23 →
        Int.lor (to_int (to_int (bat + 1) <<< (8 : Int))) (val.val : Int)
          = (bat + 1) * 2 ^ 8 + (val.val : Int)) ∧
     (-2 ^ 31 ≤ Int.lor (to_int (to_int (bat + 1) <<< (8 : Int))) (val.val : Int)
        ∧ Int.lor (to_int (to_int (bat + 1) <<< (8 : Int))) (val.val : Int) < 2 ^ 31) ∧
     low_byte (Int.lor (to_int (to_int (bat + 1) <<< (8 : Int))) (val.val : Int))
        = (val.val : Int)) ∧
    (bat = 1 → start = 0 → val = 0 →
      requests (set_threshold F bat start val w).2.trace
          = requests w.trace ++
            [query_request 1 0,
             { edx := 0xB2, eax := 0x5380, ebx := 0x211B, ecx := 0x0200,
               esi := (query_response F bat start w).esi,
               edi := (query_response F bat start w).edi }] ∧
      (status_byte (mutate_response F bat start val w).eax = 0
        → (set_threshold F bat start val w).1 = 0)) := by
  have hv := val.isLt
  have hr := control_word_range bat
  have hor := lor_control_word bat val.val hv
  refine ⟨?_, ⟨?_, ?_, ?_, ?_⟩, ?_⟩
  · rw [set_threshold_trace_ok F bat start val w hq, hor]
    rfl
  · rw [hor]
    have h32 := control_word_reg32 bat
    unfold reg32 at h32 ⊢
    norm_num
    omega
  · intro h0 h1
    rw [hor, control_word_exact bat (by norm_num at h0; omega) (by norm_num at h1; omega)]
    norm_num
  · rw [hor]
    norm_num
    omega
  · rw [hor]
    unfold low_byte
    omega
  · intro hb hs hv0
    subst hb hs hv0
    constructor
    · rw [set_threshold_trace_ok F 1 0 0 w hq, requests_append]
      rfl
    · intro h0
      rw [set_threshold_ret_ok F 1 0 0 w hq]
      simp [h0]

/-- Witness of C3: battery 1, stop, value 0 against a firmware that answers the
query with tokens `(0x1234, 0x5678)` and the mutate call with status 0; and
`bat = 8388607`, start, value 1 against the same firmware, where the control
words are the `int`s -2^31 and -2^31+1 (register contents 0x80000000 and
0x80000001). -/
theorem set_threshold_mutate_request_witness :
    query_ok (query_response (scripted scenario_script) 1 0 (World.init 0)) ∧
    requests (set_threshold (scripted scenario_script) 1 0 0 (World.init 0)).2.trace
        = [query_request 1 0,
           { edx := 0xB2, eax := 0x5380, ebx := 0x211B, ecx := 0x0200,
             esi := 0x1234, edi := 0x5678 }] ∧
    (set_threshold (scripted scenario_script) 1 0 0 (World.init 0)).1 = 0 ∧
    requests (set_threshold (scripted scenario_script) 8388607 1 1 (World.init 0)).2.trace
        = [{ edx := 0xB2, eax := 0x5380, ebx := 0x2116, ecx := -0x80000000,
             esi := 0, edi := 0 },
           { edx := 0xB2, eax := 0x5380, ebx := 0x2117, ecx := -0x7FFFFFFF,
             esi := 0x1234, edi := 0x5678 }] ∧
    (requests
        (set_threshold (scripted scenario_script) 8388607 1 1 (World.init 0)).2.trace).map
      (fun r => reg32 r.ecx) = [0x80000000, 0x80000001] :=
  ⟨by decide,
   ((set_threshold_mutate_request (scripted scenario_script) 1 0 0 (World.init 0)
      (by decide)).2.2 rfl rfl rfl).1,
   ((set_threshold_mutate_request (scripted scenario_script) 1 0 0 (World.init 0)
      (by decide)).2.2 rfl rfl rfl).2 (by decide),
   by
    rw [(set_threshold_mutate_request (scripted scenario_script) 8388607 1 1 (World.init 0)
      (by decide)).1, lor_control_word 8388607 _ (by decide)]
    decide,
   by
    rw [(set_threshold_mutate_request (scripted scenario_script) 8388607 1 1 (World.init 0)
      (by decide)).1, lor_control_word 8388607 _ (by decide)]
    decide⟩

/-- C5: when phase 1 succeeds, the result of `set_threshold` is decided by the
status byte of the mutate response: `-EAGAIN` exactly for 0xA6, `- EIO` exactly
for another nonzero status, `0` exactly for status 0; so a nonzero mutate
status makes the whole operation fail.  Any run whose phase 1 succeeds and
whose mutate response has the same bits 8-15 in EAX returns the same result,
whatever the rest of the mutate response. -/
theorem set_threshold_mutate_status {σ : Type} (F : Firmware σ) (bat start : Int)
    (val : uint8_t) (w : World σ) (hq : query_ok (query_response F bat start w)) :
    ((set_threshold F bat start val w).1 = -EAGAIN
        ↔ status_byte (mutate_response F bat start val w).eax = 0xA6) ∧
    ((set_threshold F bat start val w).1 = - EIO
        ↔ status_byte (mutate_response F bat start val w).eax ≠ 0
          ∧ status_byte (mutate_response F bat start val w).eax ≠ 0xA6) ∧
    ((set_threshold F bat start val w).1 = 0
        ↔ status_byte (mutate_response F bat start val w).eax = 0) ∧
    (status_byte (mutate_response F bat start val w).eax ≠ 0
        → (set_threshold F bat start val w).1 ≠ 0) ∧
    (∀ (τ : Type) (G : Firmware τ) (bat2 start2 : Int) (val2 : uint8_t) (u : World τ),
        query_ok (query_response G bat2 start2 u) →
        same_bits_8_15 (mutate_response G bat2 start2 val2 u).eax
          (mutate_response F bat start val w).eax →
        (set_threshold G bat2 start2 val2 u).1 = (set_threshold F bat start val w).1) := by
  rw [set_threshold_ret_ok F bat start val w hq]
  refine ⟨?_, ?_, ?_, ?_, ?_⟩
  · split_ifs with h1 h2 <;> simp [EAGAIN, EIO, h1]
  · split_ifs with h1 h2 <;> simp_all [EAGAIN, EIO]
  · split_ifs with h1 h2 <;> simp_all [EAGAIN, EIO]
  · intro hne
    split_ifs with h1 <;> simp_all [EAGAIN, EIO]
  · intro τ G bat2 start2 val2 u hq2 hbits
    rw [set_threshold_ret_ok G bat2 start2 val2 u hq2, status_byte_congr _ _ hbits]

/-- Witness of C5: phase 1 succeeds, the mutate call is rejected with status
0x53 (and a set validity flag), and the operation fails with `- EIO`. -/
theorem set_threshold_mutate_status_witness :
    query_ok (query_response (scripted reject_script) 0 1 (World.init 0)) ∧
    status_byte (mutate_response (scripted reject_script) 0 1 50 (World.init 0)).eax = 0x53 ∧
    (set_threshold (scripted reject_script) 0 1 50 (World.init 0)).1 = - EIO :=
  ⟨by decide, by decide,
   (set_threshold_mutate_status (scripted reject_script) 0 1 50 (World.init 0)
      (by decide)).2.1.mpr (by decide)⟩

/-- C6: phase 1 of `set_threshold` is the call of `get_threshold`.  The trace
of `get_threshold` (the old trace and its one call) is a prefix of the trace of
`set_threshold` for every value, so both issue the same request first and see
the same response; `set_threshold` stops there exactly when `get_threshold`
fails, and then it returns the error code of `get_threshold`, leaves the
firmware in the same state and has issued no other request; when
`get_threshold` succeeds, `set_threshold` goes on to the mutate request. -/
theorem set_threshold_phase1 {σ : Type} (F : Firmware σ) (bat start : Int)
    (val old : uint8_t) (w : World σ) :
    (get_threshold F bat start old w).world.trace
        = w.trace ++ [Event.smapi (query_request bat start) (query_response F bat start w)] ∧
    (get_threshold F bat start old w).world.trace <+: (set_threshold F bat start val w).2.trace ∧
    ((get_threshold F bat start old w).ret ≠ 0
        ↔ (set_threshold F bat start val w).2.trace
            = (get_threshold F bat start old w).world.trace) ∧
    ((get_threshold F bat start old w).ret ≠ 0 →
        (set_threshold F bat start val w).1 = (get_threshold F bat start old w).ret ∧
        (set_threshold F bat start val w).2.fw = (get_threshold F bat start old w).world.fw ∧
        requests (set_threshold F bat start val w).2.trace
          = requests w.trace ++ [query_request bat start]) ∧
    ((get_threshold F bat start old w).ret = 0 →
        requests (set_threshold F bat start val w).2.trace
          = requests w.trace ++
            [query_request bat start,
             mutate_request bat start val (query_response F bat start w).esi
               (query_response F bat start w).edi]) := by
  have hg := get_threshold_trace F bat start old w
  have hz := get_threshold_ret_zero F bat start old w
  by_cases hq : query_ok (query_response F bat start w)
  · have ht := set_threshold_trace_ok F bat start val w hq
    have h0 := hz.mpr hq
    refine ⟨hg, ?_, ?_, ?_, ?_⟩
    · rw [hg, ht]
      exact ⟨[printf_event F bat start w, mutate_event F bat start val w, Event.usleep 50000],
        by simp⟩
    · rw [hg, ht]
      simp [h0]
    · intro hne
      exact absurd h0 hne
    · intro _
      rw [ht, requests_append]
      rfl
  · obtain ⟨hr, ht, hf⟩ := set_threshold_abort F bat start val old w hq
    have hne : (get_threshold F bat start old w).ret ≠ 0 := fun h => hq (hz.mp h)
    refine ⟨hg, ?_, ?_, ?_, ?_⟩
    · rw [hg, ht]
    · rw [hg, ht]
      simp [hne]
    · intro _
      refine ⟨hr, ?_, ?_⟩
      · rw [hf, get_threshold_fw]
      · rw [ht, requests_append]
        rfl
    · intro h0
      exact absurd h0 hne

/-- C7: the events that `set_threshold` adds to the trace.  When phase 1
succeeds they are the query call, the `printf`, the mutate call and then
`usleep(50000)` as the last event before the return, whatever the mutate
response; so the pauses added are exactly one pause of 50000 microseconds.  When
phase 1 fails the query call is the only event added: no mutate request and no
pause. -/
theorem set_threshold_pause {σ : Type} (F : Firmware σ) (bat start : Int)
    (val : uint8_t) (w : World σ) :
    (query_ok (query_response F bat start w) →
      (set_threshold F bat start val w).2.trace
          = w.trace ++
            [Event.smapi (query_request bat start) (query_response F bat start w),
             Event.printf (query_response F bat start w).esi
               (query_response F bat start w).edi (query_response F bat start w).ecx,
             Event.smapi
               (mutate_request bat start val (query_response F bat start w).esi
                 (query_response F bat start w).edi)
               (mutate_response F bat start val w),
             Event.usleep 50000] ∧
      pauses (set_threshold F bat start val w).2.trace = pauses w.trace ++ [50000]) ∧
    (¬ query_ok (query_response F bat start w) →
      (set_threshold F bat start val w).2.trace
          = w.trace ++
            [Event.smapi (query_request bat start) (query_response F bat start w)] ∧
      pauses (set_threshold F bat start val w).2.trace = pauses w.trace ∧
      requests (set_threshold F bat start val w).2.trace
          = requests w.trace ++ [query_request bat start]) := by
  constructor
  · intro hq
    have ht := set_threshold_trace_ok F bat start val w hq
    refine ⟨ht, ?_⟩
    rw [ht, pauses_append]
    rfl
  · intro hq
    obtain ⟨_, ht, _⟩ := set_threshold_abort F bat start val 0 w hq
    refine ⟨ht, ?_, ?_⟩
    · rw [ht, pauses_append]
      simp [query_event, pauses]
    · rw [ht, requests_append]
      rfl

/-- Witness of C7: with the mutate call answered by status 0xA6 the pause is
made, and with the query rejected nothing but the query call happens. -/
theorem set_threshold_pause_witness :
    pauses (set_threshold (scripted busy_script) 0 1 50 (World.init 0)).2.trace = [50000] ∧
    (set_threshold (scripted invalid_script) 0 1 50 (World.init 0)).2.trace
        = [Event.smapi (query_request 0 1) ⟨0, 0x0032, 7, 9⟩] :=
  ⟨((set_threshold_pause (scripted busy_script) 0 1 50 (World.init 0)).1 (by decide)).2,
   ((set_threshold_pause (scripted invalid_script) 0 1 50 (World.init 0)).2 (by decide)).1⟩

/-! ## Frame properties -/

/-- C8: a response with status 0 and the validity flag clear makes
`get_threshold` return `- EIO`, and on every failing return of `get_threshold`
the content of `*val` after the call is the content before it. -/
theorem get_threshold_failure_frame {σ : Type} (F : Firmware σ) (bat start : Int)
    (val : uint8_t) (w : World σ) :
    (status_byte (query_response F bat start w).eax = 0 →
      validity_flag (query_response F bat start w).ecx = false →
      (get_threshold F bat start val w).ret = - EIO ∧
      (get_threshold F bat start val w).val = val) ∧
    ((get_threshold F bat start val w).ret ≠ 0 →
      (get_threshold F bat start val w).val = val) := by
  constructor
  · intro hs hv
    rw [get_threshold_cases]
    simp [hs, hv]
  · intro hne
    rw [get_threshold_cases] at hne ⊢
    split_ifs at hne ⊢ with h1 h2 h3
    · rfl
    · rfl
    · rfl
    · exact absurd rfl hne

/-- Witness of C8: the response has status 0, the validity flag clear and low
byte 0x32; `get_threshold` returns `- EIO` and `*val` keeps its old content 77. -/
theorem get_threshold_failure_frame_witness :
    (get_threshold (scripted invalid_script) 0 1 77 (World.init 0)).ret = - EIO ∧
    (get_threshold (scripted invalid_script) 0 1 77 (World.init 0)).val = 77 :=
  (get_threshold_failure_frame (scripted invalid_script) 0 1 77 (World.init 0)).1
    (by decide) (by decide)

/-- Counterexample to C9 as stated: the query succeeds and the mutate call is
answered with status 0xA6; `set_threshold` returns `-EAGAIN`, but during the
operation a line has been written to standard output and a pause has been
made. -/
theorem retry_no_side_effect_counterexample :
    status_byte (mutate_response (scripted busy_script) 0 1 50 (World.init 0)).eax = 0xA6 ∧
    (set_threshold (scripted busy_script) 0 1 50 (World.init 0)).1 = -EAGAIN ∧
    stdout_writes (set_threshold (scripted busy_script) 0 1 50 (World.init 0)).2.trace
      = [Event.printf 7 9 0x0132] ∧
    pauses (set_threshold (scripted busy_script) 0 1 50 (World.init 0)).2.trace = [50000] := by
  decide

/-- C9, amended: a status byte 0xA6 on the call of `get_threshold` gives
`-EAGAIN`, leaves `*val` as it was and adds only that call to the trace; a
status byte 0xA6 on the query call of `set_threshold` gives `-EAGAIN` and adds
only that call to the trace; a status byte 0xA6 on the mutate call of
`set_threshold` gives `-EAGAIN` and no firmware call follows it: the events
added are the query call, the `printf` made before the mutate call, the mutate
call and the pause of 50000 microseconds. -/
theorem retry_effects {σ : Type} (F : Firmware σ) (bat start : Int)
    (val old : uint8_t) (w : World σ) :
    (status_byte (query_response F bat start w).eax = 0xA6 →
      ((get_threshold F bat start old w).ret = -EAGAIN ∧
       (get_threshold F bat start old w).val = old ∧
       (get_threshold F bat start old w).world.trace
         = w.trace ++
           [Event.smapi (query_request bat start) (query_response F bat start w)]) ∧
      ((set_threshold F bat start val w).1 = -EAGAIN ∧
       (set_threshold F bat start val w).2.trace
         = w.trace ++
           [Event.smapi (query_request bat start) (query_response F bat start w)])) ∧
    (query_ok (query_response F bat start w) →
      status_byte (mutate_response F bat start val w).eax = 0xA6 →
      (set_threshold F bat start val w).1 = -EAGAIN ∧
      (set_threshold F bat start val w).2.trace
        = w.trace ++
          [Event.smapi (query_request bat start) (query_response F bat start w),
           Event.printf (query_response F bat start w).esi
             (query_response F bat start w).edi (query_response F bat start w).ecx,
           Event.smapi
             (mutate_request bat start val (query_response F bat start w).esi
               (query_response F bat start w).edi)
             (mutate_response F bat start val w),
           Event.usleep 50000]) := by
  constructor
  · intro hs
    constructor
    · rw [get_threshold_cases, if_pos hs]
      exact ⟨rfl, rfl, rfl⟩
    · rw [set_threshold_cases, if_pos hs]
      exact ⟨rfl, rfl⟩
  · intro hq hs
    constructor
    · rw [set_threshold_ret_ok F bat start val w hq, if_pos hs]
    · exact set_threshold_trace_ok F bat start val w hq

/-- Witness of amended C9: with status 0xA6 on the first call both operations
return `-EAGAIN` after that single call; with status 0xA6 on the mutate call
`set_threshold` returns `-EAGAIN` after two calls. -/
theorem retry_effects_witness :
    (get_threshold (scripted retry_script) 0 1 77 (World.init 0)).ret = -EAGAIN ∧
    (get_threshold (scripted retry_script) 0 1 77 (World.init 0)).val = 77 ∧
    (set_threshold (scripted retry_script) 0 1 50 (World.init 0)).2.trace
      = [Event.smapi (query_request 0 1) ⟨0xA600, 0x0132, 7, 9⟩] ∧
    (set_threshold (scripted busy_script) 0 1 50 (World.init 0)).1 = -EAGAIN :=
  ⟨((retry_effects (scripted retry_script) 0 1 50 77 (World.init 0)).1 (by decide)).1.1,
   ((retry_effects (scripted retry_script) 0 1 50 77 (World.init 0)).1 (by decide)).1.2.1,
   ((retry_effects (scripted retry_script) 0 1 50 77 (World.init 0)).1 (by decide)).2.2,
   ((retry_effects (scripted busy_script) 0 1 50 77 (World.init 0)).2
      (by decide) (by decide)).1⟩

/-! ## The value is passed through -/

/-- C10: `set_threshold` treats every value alike.  Against the same sequence
of firmware responses, two values give the same result, the same number of
firmware calls and the same final firmware state; when phase 1 fails the two
traces are equal, and when it succeeds the trace is, for every value `v`, the
query call, the `printf`, the mutate call and the pause, where the control
word of the mutate call is `((bat+1) << 8) | v` in 32-bit `int` arithmetic: the
control word of the battery plus `v`, with low byte `v` and the remaining bits
those of the control word of the battery, the same for every value (the
register contains `(bat+1) * 2^8 + v` modulo 2^32, and the control word is
`(bat+1) * 2^8 + v` with remaining bits `bat+1` when that fits an `int`).  In
particular the value 100 for the stop threshold is sent in the mutate request,
and a mutate status that is neither 0 nor 0xA6 gives `- EIO`. -/
theorem set_threshold_value_passthrough (f : Nat → Response) (bat start : Int)
    (v1 v2 : uint8_t) (w : World Nat) :
    (set_threshold (scripted f) bat start v1 w).1
        = (set_threshold (scripted f) bat start v2 w).1 ∧
    (requests (set_threshold (scripted f) bat start v1 w).2.trace).length
        = (requests (set_threshold (scripted f) bat start v2 w).2.trace).length ∧
    (set_threshold (scripted f) bat start v1 w).2.fw
        = (set_threshold (scripted f) bat start v2 w).2.fw ∧
    (¬ query_ok (f w.fw) →
      (set_threshold (scripted f) bat start v1 w).2.trace
        = (set_threshold (scripted f) bat start v2 w).2.trace) ∧
    (query_ok (f w.fw) → ∀ v : uint8_t,
      (set_threshold (scripted f) bat start v w).2.trace
        = w.trace ++
          [Event.smapi (query_request bat start) (f w.fw),
           Event.printf (f w.fw).esi (f w.fw).edi (f w.fw).ecx,
           Event.smapi
             { edx := 0xB2, eax := 0x5380, ebx := if start ≠ 0 then 0x2117 else 0x211B,
               ecx := control_word bat + (v.val : Int),
               esi := (f w.fw).esi, edi := (f w.fw).edi }
             (f (w.fw + 1)),
           Event.usleep 50000]) ∧
    (∀ v : uint8_t,
      Int.lor (to_int (to_int (bat + 1) <<< (8 : Int))) (v.val : Int)
        = control_word bat + (v.val : Int) ∧
      low_byte (control_word bat + (v.val : Int)) = (v.val : Int) ∧
      (control_word bat + (v.val : Int)) / 256 = control_word bat / 256 ∧
      reg32 (control_word bat + (v.val : Int))
        = ((bat + 1) * 256 + (v.val : Int)) % 2 ^ 32 ∧
      (-2 ^ 23 ≤ bat + 1 → bat + 1 < 2 ^ 23 →
        control_word bat + (v.val : Int) = (bat + 1) * 256 + (v.val : Int) ∧
        (control_word bat + (v.val : Int)) / 256 = bat + 1)) ∧
    (query_ok (f w.fw) →
      status_byte (f (w.fw + 1)).eax ≠ 0 → status_byte (f (w.fw + 1)).eax ≠ 0xA6 →
      requests (set_threshold (scripted f) bat 0 100 w).2.trace
        = requests w.trace ++
          [query_request bat 0,
           { edx := 0xB2, eax := 0x5380, ebx := 0x211B, ecx := control_word bat + 100,
             esi := (f w.fw).esi, edi := (f w.fw).edi }] ∧
      (set_threshold (scripted f) bat 0 100 w).1 = - EIO) := by
  have hbyte : ∀ v : uint8_t,
      Int.lor (to_int (to_int (bat + 1) <<< (8 : Int))) (v.val : Int)
        = control_word bat + (v.val : Int) ∧
      low_byte (control_word bat + (v.val : Int)) = (v.val : Int) ∧
      (control_word bat + (v.val : Int)) / 256 = control_word bat / 256 ∧
      reg32 (control_word bat + (v.val : Int))
        = ((bat + 1) * 256 + (v.val : Int)) % 2 ^ 32 ∧
      (-2 ^ 23 ≤ bat + 1 → bat + 1 < 2 ^ 23 →
        control_word bat + (v.val : Int) = (bat + 1) * 256 + (v.val : Int) ∧
        (control_word bat + (v.val : Int)) / 256 = bat + 1) := by
    intro v
    have hv := v.isLt
    have hr := control_word_range bat
    have h32 := control_word_reg32 bat
    refine ⟨lor_control_word bat v.val hv, ?_, ?_, ?_, ?_⟩
    · unfold low_byte
      omega
    · omega
    · unfold reg32 at h32 ⊢
      norm_num
      omega
    · intro h0 h1
      have he := control_word_exact bat (by norm_num at h0; omega) (by norm_num at h1; omega)
      constructor <;> omega
  by_cases hq : query_ok (f w.fw)
  · have hq1 : ∀ s : Int, query_ok (query_response (scripted f) bat s w) := fun _ => hq
    have ht : ∀ (s : Int) (v : uint8_t), (set_threshold (scripted f) bat s v w).2.trace
        = w.trace ++ [query_event (scripted f) bat s w, printf_event (scripted f) bat s w,
            mutate_event (scripted f) bat s v w, Event.usleep 50000] :=
      fun s v => set_threshold_trace_ok (scripted f) bat s v w (hq1 s)
    have hr : ∀ (s : Int) (v : uint8_t), (set_threshold (scripted f) bat s v w).1
        = if status_byte (f (w.fw + 1)).eax = 0xA6 then -EAGAIN
          else if status_byte (f (w.fw + 1)).eax ≠ 0 then - EIO else 0 :=
      fun s v => set_threshold_ret_ok (scripted f) bat s v w (hq1 s)
    refine ⟨?_, ?_, ?_, ?_, ?_, hbyte, ?_⟩
    · rw [hr, hr]
    · rw [ht, ht, requests_append, requests_append, List.length_append, List.length_append]
      rfl
    · rw [set_threshold_fw_ok _ _ _ _ _ (hq1 start), set_threshold_fw_ok _ _ _ _ _ (hq1 start)]
      rfl
    · intro hn
      exact absurd hq hn
    · intro _ v
      rw [ht]
      rfl
    · intro _ h0 hA
      constructor
      · rw [ht, requests_append]
        rfl
      · rw [hr, if_neg hA, if_pos h0]
  · have hq1 : ¬ query_ok (query_response (scripted f) bat start w) := hq
    obtain ⟨hr1, ht1, hf1⟩ := set_threshold_abort (scripted f) bat start v1 0 w hq1
    obtain ⟨hr2, ht2, hf2⟩ := set_threshold_abort (scripted f) bat start v2 0 w hq1
    refine ⟨?_, ?_, ?_, ?_, ?_, hbyte, ?_⟩
    · rw [hr1, hr2]
    · rw [ht1, ht2]
    · rw [hf1, hf2]
    · intro _
      rw [ht1, ht2]
    · intro h
      exact absurd h hq
    · intro h
      exact absurd h hq

/-- Witness of C10: stop threshold 100 on battery 0 against a firmware that
accepts the query and rejects the mutate call with status 0x53: the mutate
request carries control word 0x0164 (payload byte 100) and the result is
`- EIO`. -/
theorem set_threshold_value_passthrough_witness :
    requests (set_threshold (scripted reject_script) 0 0 100 (World.init 0)).2.trace
        = [query_request 0 0,
           { edx := 0xB2, eax := 0x5380, ebx := 0x211B, ecx := 0x0164, esi := 7, edi := 9 }] ∧
    (set_threshold (scripted reject_script) 0 0 100 (World.init 0)).1 = - EIO :=
  (set_threshold_value_passthrough reject_script 0 0 0 0 (World.init 0)).2.2.2.2.2.2
    (by decide) (by decide) (by decide)

/-! ## No retry -/

/-- The result of `get_threshold` is the error kind decoded from the query response. -/
theorem get_threshold_ret {σ : Type} (F : Firmware σ) (bat start : Int) (val : uint8_t)
    (w : World σ) :
    (get_threshold F bat start val w).ret = decode_query (query_response F bat start w) := by
  rw [get_threshold_cases]
  unfold decode_query
  split_ifs <;> rfl

/-- A query response is usable exactly when it decodes to success. -/
theorem decode_query_zero (r : Response) : decode_query r = 0 ↔ query_ok r := by
  unfold decode_query query_ok
  split_ifs with h1 h2 h3 <;> simp_all [EAGAIN, EIO]

/-- C11: no retry and no loop.  `get_threshold` adds exactly one firmware call
to the trace and returns the error kind decoded from its response.
`set_threshold` adds exactly one firmware call (the query) when phase 1 fails
and then returns the nonzero error kind decoded from the query response; it
adds exactly two (the query, then the mutate call) when phase 1 succeeds and
then returns the error kind decoded from the mutate response.  This holds for
every firmware, so also for responses with status 0xA6. -/
theorem no_retry {σ : Type} (F : Firmware σ) (bat start : Int) (val old : uint8_t)
    (w : World σ) :
    (requests (get_threshold F bat start old w).world.trace
        = requests w.trace ++ [query_request bat start] ∧
     (requests (get_threshold F bat start old w).world.trace).length
        = (requests w.trace).length + 1 ∧
     (get_threshold F bat start old w).ret
        = decode_query (query_response F bat start w)) ∧
    (¬ query_ok (query_response F bat start w) →
      requests (set_threshold F bat start val w).2.trace
        = requests w.trace ++ [query_request bat start] ∧
      (requests (set_threshold F bat start val w).2.trace).length
        = (requests w.trace).length + 1 ∧
      (set_threshold F bat start val w).1 = decode_query (query_response F bat start w) ∧
      (set_threshold F bat start val w).1 ≠ 0) ∧
    (query_ok (query_response F bat start w) →
      requests (set_threshold F bat start val w).2.trace
        = requests w.trace ++
          [query_request bat start,
           mutate_request bat start val (query_response F bat start w).esi
             (query_response F bat start w).edi] ∧
      (requests (set_threshold F bat start val w).2.trace).length
        = (requests w.trace).length + 2 ∧
      (set_threshold F bat start val w).1
        = decode_status (mutate_response F bat start val w)) := by
  have hg : requests (get_threshold F bat start old w).world.trace
      = requests w.trace ++ [query_request bat start] := by
    rw [get_threshold_trace, requests_append]
    rfl
  refine ⟨⟨hg, ?_, get_threshold_ret F bat start old w⟩, ?_, ?_⟩
  · rw [hg, List.length_append]
    rfl
  · intro hq
    obtain ⟨hr, ht, _⟩ := set_threshold_abort F bat start val old w hq
    have hs : requests (set_threshold F bat start val w).2.trace
        = requests w.trace ++ [query_request bat start] := by
      rw [ht, requests_append]
      rfl
    refine ⟨hs, ?_, ?_, ?_⟩
    · rw [hs, List.length_append]
      rfl
    · rw [hr, get_threshold_ret]
    · rw [hr, get_threshold_ret]
      exact fun h => hq ((decode_query_zero _).mp h)
  · intro hq
    have hs : requests (set_threshold F bat start val w).2.trace
        = requests w.trace ++
          [query_request bat start,
           mutate_request bat start val (query_response F bat start w).esi
             (query_response F bat start w).edi] := by
      rw [set_threshold_trace_ok F bat start val w hq, requests_append]
      rfl
    refine ⟨hs, ?_, ?_⟩
    · rw [hs, List.length_append]
      rfl
    · rw [set_threshold_ret_ok F bat start val w hq]
      rfl

/-- Witness of C11: against a firmware that always answers 0xA6 both
operations stop after one call with `-EAGAIN`; with 0xA6 on the mutate call
`set_threshold` stops after two calls with `-EAGAIN`. -/
theorem no_retry_witness :
    (requests (get_threshold (scripted retry_script) 0 1 0 (World.init 0)).world.trace).length
        = 1 ∧
    (get_threshold (scripted retry_script) 0 1 0 (World.init 0)).ret = -EAGAIN ∧
    (requests (set_threshold (scripted retry_script) 0 1 50 (World.init 0)).2.trace).length
        = 1 ∧
    (requests (set_threshold (scripted busy_script) 0 1 50 (World.init 0)).2.trace).length
        = 2 ∧
    (set_threshold (scripted busy_script) 0 1 50 (World.init 0)).1 = -EAGAIN :=
  ⟨(no_retry (scripted retry_script) 0 1 50 0 (World.init 0)).1.2.1,
   (no_retry (scripted retry_script) 0 1 50 0 (World.init 0)).1.2.2,
   ((no_retry (scripted retry_script) 0 1 50 0 (World.init 0)).2.1 (by decide)).2.1,
   ((no_retry (scripted busy_script) 0 1 50 0 (World.init 0)).2.2 (by decide)).2.1,
   ((no_retry (scripted busy_script) 0 1 50 0 (World.init 0)).2.2 (by decide)).2.2⟩

/-! ## Request invariants -/

/-- The requests that `get_threshold` adds to those of the trace. -/
theorem get_threshold_new_requests {σ : Type} (F : Firmware σ) (bat start : Int)
    (val : uint8_t) (w : World σ) :
    (requests (get_threshold F bat start val w).world.trace).drop (requests w.trace).length
      = [query_request bat start] := by
  rw [get_threshold_trace, requests_append, List.drop_left]
  rfl

/-- The requests that `set_threshold` adds to those of the trace. -/
theorem set_threshold_new_requests {σ : Type} (F : Firmware σ) (bat start : Int)
    (val : uint8_t) (w : World σ) :
    (requests (set_threshold F bat start val w).2.trace).drop (requests w.trace).length
      = if query_ok (query_response F bat start w) then
          [query_request bat start,
           mutate_request bat start val (query_response F bat start w).esi
             (query_response F bat start w).edi]
        else [query_request bat start] := by
  by_cases hq : query_ok (query_response F bat start w)
  · rw [if_pos hq, set_threshold_trace_ok F bat start val w hq, requests_append,
      List.drop_left]
    rfl
  · rw [if_neg hq, (set_threshold_abort F bat start val 0 w hq).2.1, requests_append,
      List.drop_left]
    rfl

/-- The sub-function and payload byte of a query request. -/
theorem query_request_payload (bat start : Int) :
    ((query_request bat start).ebx = 0x2116 ∨ (query_request bat start).ebx = 0x211A) ∧
    low_byte (query_request bat start).ecx = 0 := by
  have hr := control_word_range bat
  unfold query_request low_byte
  constructor
  · by_cases h : start ≠ 0 <;> simp [h]
  · simp only
    omega

/-- The sub-function and payload byte of a mutate request. -/
theorem mutate_request_payload (bat start : Int) (val : uint8_t) (esi edi : Int) :
    ((mutate_request bat start val esi edi).ebx = 0x2117
      ∨ (mutate_request bat start val esi edi).ebx = 0x211B) ∧
    low_byte (mutate_request bat start val esi edi).ecx = (val.val : Int) := by
  have hr := control_word_range bat
  unfold mutate_request low_byte
  have hv := val.isLt
  constructor
  · by_cases h : start ≠ 0 <;> simp [h]
  · simp only
    omega

/-- Counterexample to C13 as stated: `set_threshold(0, start, 200)` against a
firmware that accepts the query issues a request with the set sub-function
0x2117 whose payload byte is 200, outside 0..100. -/
theorem payload_range_counterexample :
    ∃ req : Request,
      req ∈ requests (set_threshold (scripted scenario_script) 0 1 200 (World.init 0)).2.trace ∧
      req.ebx = 0x2117 ∧ low_byte req.ecx = 200 ∧ ¬ (low_byte req.ecx ≤ 100) :=
  ⟨{ edx := 0xB2, eax := 0x5380, ebx := 0x2117, ecx := 0x01C8, esi := 0x1234, edi := 0x5678 },
    by decide, by decide, by decide, by decide⟩

/-- C13, amended: every request that `get_threshold` issues has a get
sub-function and payload byte 0; every request that `set_threshold` issues
with a get sub-function (phase 1) has payload byte 0, and every request it
issues with a set sub-function has the payload byte `val`, for every `uint8_t`
value, so that its payload byte is in 0..100 exactly when `val` is. -/
theorem payload_consistency {σ : Type} (F : Firmware σ) (bat start : Int)
    (val old : uint8_t) (w : World σ) :
    (∀ req ∈ (requests (get_threshold F bat start old w).world.trace).drop
          (requests w.trace).length,
      (req.ebx = 0x2116 ∨ req.ebx = 0x211A) ∧ low_byte req.ecx = 0) ∧
    (∀ req ∈ (requests (set_threshold F bat start val w).2.trace).drop
          (requests w.trace).length,
      ((req.ebx = 0x2116 ∨ req.ebx = 0x211A) → low_byte req.ecx = 0) ∧
      ((req.ebx = 0x2117 ∨ req.ebx = 0x211B) →
        low_byte req.ecx = (val.val : Int) ∧
        (0 ≤ low_byte req.ecx ∧ low_byte req.ecx ≤ 100 ↔ val.val ≤ 100))) := by
  have hq := query_request_payload bat start
  have hm := mutate_request_payload bat start val (query_response F bat start w).esi
    (query_response F bat start w).edi
  constructor
  · intro req hreq
    rw [get_threshold_new_requests] at hreq
    rw [List.mem_singleton] at hreq
    subst hreq
    exact hq
  · intro req hreq
    rw [set_threshold_new_requests] at hreq
    have hcases : req = query_request bat start ∨
        req = mutate_request bat start val (query_response F bat start w).esi
          (query_response F bat start w).edi := by
      split_ifs at hreq
      · simpa using hreq
      · left
        simpa using hreq
    rcases hcases with h | h
    · subst h
      refine ⟨fun _ => hq.2, fun hset => ?_⟩
      rcases hq.1 with h1 | h1 <;> rcases hset with h2 | h2 <;> rw [h1] at h2 <;>
        exact absurd h2 (by decide)
    · subst h
      refine ⟨fun hget => ?_, fun _ => ⟨hm.2, ?_⟩⟩
      · rcases hm.1 with h1 | h1 <;> rcases hget with h2 | h2 <;> rw [h1] at h2 <;>
          exact absurd h2 (by decide)
      · rw [hm.2]
        omega

/-- Witness of amended C13: with value 200 the mutate request carries payload
byte 200. -/
theorem payload_consistency_witness :
    low_byte (mutate_request 0 1 200 0x1234 0x5678).ecx = 200 :=
  ((payload_consistency (scripted scenario_script) 0 1 200 0 (World.init 0)).2
    (mutate_request 0 1 200 0x1234 0x5678) (by decide)).2 (by decide) |>.1

/-- C15: for `0 ≤ bat ≤ 254` and every `uint8_t` value the control word
`c = ((bat+1) << 8) | val` of the mutate request satisfies `c & 0xFF = val`,
`(c >> 8) & 0xFF = bat+1` and `0 ≤ c < 2^16`; the control word `(bat+1) << 8`
of the query has the same battery byte `bat+1`; and these are the control words
of the two requests that `set_threshold` issues when phase 1 succeeds: in this
range the 32-bit arithmetic of the code does not wrap. -/
theorem control_word_packing {σ : Type} (F : Firmware σ) (bat start : Int)
    (val : uint8_t) (w : World σ) (h0 : 0 ≤ bat) (h1 : bat ≤ 254) :
    Int.land (Int.lor ((bat + 1) <<< (8 : Int)) (val.val : Int)) 0xFF = (val.val : Int) ∧
    Int.land ((Int.lor ((bat + 1) <<< (8 : Int)) (val.val : Int)) >>> (8 : Nat)) 0xFF
      = bat + 1 ∧
    0 ≤ Int.lor ((bat + 1) <<< (8 : Int)) (val.val : Int) ∧
    Int.lor ((bat + 1) <<< (8 : Int)) (val.val : Int) < 2 ^ 16 ∧
    Int.land (((bat + 1) <<< (8 : Int)) >>> (8 : Nat)) 0xFF = bat + 1 ∧
    (query_ok (query_response F bat start w) →
      requests (set_threshold F bat start val w).2.trace
        = requests w.trace ++
          [{ edx := 0xB2, eax := 0x5380, ebx := if start ≠ 0 then 0x2116 else 0x211A,
             ecx := (bat + 1) <<< (8 : Int), esi := 0, edi := 0 },
           { edx := 0xB2, eax := 0x5380, ebx := if start ≠ 0 then 0x2117 else 0x211B,
             ecx := Int.lor ((bat + 1) <<< (8 : Int)) (val.val : Int),
             esi := (query_response F bat start w).esi,
             edi := (query_response F bat start w).edi }]) ∧
    to_int (to_int (bat + 1) <<< (8 : Int)) = (bat + 1) <<< (8 : Int) ∧
    Int.lor (to_int (to_int (bat + 1) <<< (8 : Int))) (val.val : Int)
      = Int.lor ((bat + 1) <<< (8 : Int)) (val.val : Int) := by
  have hv := val.isLt
  have he := control_word_exact bat (by omega) (by omega)
  have hs : to_int (to_int (bat + 1) <<< (8 : Int)) = (bat + 1) <<< (8 : Int) := by
    rw [shl_control_word, he, shl_8]
  refine ⟨?_, ?_, ?_, ?_, ?_, ?_, hs, by rw [hs]⟩
  · rw [lor_shl (bat + 1) val.val hv, land_255]
    omega
  · rw [lor_shl (bat + 1) val.val hv, land_255, Int.shiftRight_eq_div_pow]
    push_cast
    omega
  · rw [lor_shl (bat + 1) val.val hv]
    omega
  · rw [lor_shl (bat + 1) val.val hv]
    norm_num
    omega
  · rw [shl_8, land_255, Int.shiftRight_eq_div_pow]
    push_cast
    omega
  · intro hq
    rw [set_threshold_trace_ok F bat start val w hq, requests_append,
      lor_shl (bat + 1) val.val hv, shl_8, ← he]
    rfl

/-- Witness of C15: battery index 1 and value 100 give the control word
0x0264. -/
theorem control_word_packing_witness :
    Int.lor (((1 : Int) + 1) <<< (8 : Int)) (((100 : uint8_t).val : Nat) : Int) < 2 ^ 16 ∧
    Int.land (Int.lor (((1 : Int) + 1) <<< (8 : Int)) (((100 : uint8_t).val : Nat) : Int)) 0xFF
      = 100 :=
  ⟨(control_word_packing (scripted scenario_script) 1 0 100 (World.init 0)
      (by decide) (by decide)).2.2.2.1,
   (control_word_packing (scripted scenario_script) 1 0 100 (World.init 0)
      (by decide) (by decide)).1⟩

/-! ## Round trip -/

/-- Bit 8 of `0x0100 + r` is set when `r` is a byte. -/
theorem flag_of_byte (r : Int) (h0 : 0 ≤ r) (h1 : r < 256) :
    validity_flag (0x0100 + r) = true := by
  unfold validity_flag
  rw [testBit_iff]
  norm_num
  omega

/-- The firmware `byte_firmware` is well behaved. -/
theorem byte_firmware_well_behaved : WellBehaved byte_firmware byte_stored := by
  constructor
  · intro s req h
    have hr0 := Int.emod_nonneg (s (battery_byte req.ecx) true) (by norm_num : (256 : Int) ≠ 0)
    have hr1 := Int.emod_lt_of_pos (s (battery_byte req.ecx) true)
      (by norm_num : (0 : Int) < 256)
    simp only [byte_firmware, h, if_true]
    refine ⟨by decide, flag_of_byte _ hr0 hr1, ?_⟩
    unfold low_byte byte_stored
    omega
  · intro s req h
    have hr0 := Int.emod_nonneg (s (battery_byte req.ecx) false) (by norm_num : (256 : Int) ≠ 0)
    have hr1 := Int.emod_lt_of_pos (s (battery_byte req.ecx) false)
      (by norm_num : (0 : Int) < 256)
    have hne : ¬ ((0x211A : Int) = 0x2116) := by decide
    simp only [byte_firmware, h, hne, if_true, if_false]
    refine ⟨by decide, flag_of_byte _ hr0 hr1, ?_⟩
    unfold low_byte byte_stored
    omega
  · intro s req h
    have hne1 : ¬ ((0x2117 : Int) = 0x2116) := by decide
    have hne2 : ¬ ((0x2117 : Int) = 0x211A) := by decide
    simp only [byte_firmware, h, hne1, hne2, if_true, if_false]
    refine ⟨by decide, ?_⟩
    unfold byte_stored low_byte
    simp
  · intro s req h
    have hne1 : ¬ ((0x211B : Int) = 0x2116) := by decide
    have hne2 : ¬ ((0x211B : Int) = 0x211A) := by decide
    have hne3 : ¬ ((0x211B : Int) = 0x2117) := by decide
    simp only [byte_firmware, h, hne1, hne2, hne3, if_true, if_false]
    refine ⟨by decide, ?_⟩
    unfold byte_stored low_byte
    simp

/-- The battery byte of the control words of the query and of the mutate request. -/
theorem battery_byte_requests (bat start : Int) (val : uint8_t) (esi edi : Int) :
    battery_byte (query_request bat start).ecx = (bat + 1) % 256 ∧
    battery_byte (mutate_request bat start val esi edi).ecx = (bat + 1) % 256 := by
  have hv := val.isLt
  unfold battery_byte query_request mutate_request control_word to_int
  constructor <;> simp only <;> omega

/-- A well-behaved firmware answers the query with a usable response that
carries the stored byte. -/
theorem well_behaved_query {σ : Type} (F : Firmware σ) (stored : σ → Int → Bool → Int)
    (hF : WellBehaved F stored) (bat start : Int) (w : World σ) :
    query_ok (query_response F bat start w) ∧
    low_byte (query_response F bat start w).ecx
      = stored w.fw ((bat + 1) % 256) (decide (start ≠ 0)) := by
  have hb := (battery_byte_requests bat start 0 0 0).1
  unfold query_ok query_response
  by_cases h : start ≠ 0
  · have he : (query_request bat start).ebx = 0x2116 := by simp [query_request, h]
    obtain ⟨h1, h2, h3⟩ := hF.get_start w.fw (query_request bat start) he
    rw [hb] at h3
    rw [decide_eq_true h]
    exact ⟨⟨h1, h2⟩, h3⟩
  · have he : (query_request bat start).ebx = 0x211A := by simp [query_request, h]
    obtain ⟨h1, h2, h3⟩ := hF.get_stop w.fw (query_request bat start) he
    rw [hb] at h3
    rw [decide_eq_false h]
    exact ⟨⟨h1, h2⟩, h3⟩

/-- A well-behaved firmware answers the mutate request with status 0 and
stores its payload byte. -/
theorem well_behaved_mutate {σ : Type} (F : Firmware σ) (stored : σ → Int → Bool → Int)
    (hF : WellBehaved F stored) (bat start : Int) (val : uint8_t) (w : World σ) :
    status_byte (mutate_response F bat start val w).eax = 0 ∧
    stored (mutate_state F bat start val w) ((bat + 1) % 256) (decide (start ≠ 0))
      = (val.val : Int) := by
  have hb := (battery_byte_requests bat start val (query_response F bat start w).esi
    (query_response F bat start w).edi).2
  have hp := (mutate_request_payload bat start val (query_response F bat start w).esi
    (query_response F bat start w).edi).2
  unfold mutate_response mutate_state
  by_cases h : start ≠ 0
  · have he : (mutate_request bat start val (query_response F bat start w).esi
        (query_response F bat start w).edi).ebx = 0x2117 := by simp [mutate_request, h]
    obtain ⟨h1, h2⟩ := hF.set_start (query_state F bat start w) _ he
    rw [hb, hp] at h2
    rw [decide_eq_true h]
    exact ⟨h1, h2⟩
  · have he : (mutate_request bat start val (query_response F bat start w).esi
        (query_response F bat start w).edi).ebx = 0x211B := by simp [mutate_request, h]
    obtain ⟨h1, h2⟩ := hF.set_stop (query_state F bat start w) _ he
    rw [hb, hp] at h2
    rw [decide_eq_false h]
    exact ⟨h1, h2⟩

/-- Against a well-behaved firmware `get_threshold` succeeds and reads the stored byte. -/
theorem well_behaved_get {σ : Type} (F : Firmware σ) (stored : σ → Int → Bool → Int)
    (hF : WellBehaved F stored) (bat start : Int) (old : uint8_t) (w : World σ) :
    (get_threshold F bat start old w).ret = 0 ∧
    (((get_threshold F bat start old w).val).val : Int)
      = stored w.fw ((bat + 1) % 256) (decide (start ≠ 0)) := by
  obtain ⟨hq, hl⟩ := well_behaved_query F stored hF bat start w
  obtain ⟨h1, h2, h3⟩ := (query_ok_iff _).mp hq
  rw [get_threshold_cases, if_neg h1, if_neg h2, if_neg h3]
  exact ⟨rfl, (stored_byte _).trans hl⟩

/-- Against a well-behaved firmware `set_threshold` succeeds and the value is stored. -/
theorem well_behaved_set {σ : Type} (F : Firmware σ) (stored : σ → Int → Bool → Int)
    (hF : WellBehaved F stored) (bat start : Int) (val : uint8_t) (w : World σ) :
    (set_threshold F bat start val w).1 = 0 ∧
    stored (set_threshold F bat start val w).2.fw ((bat + 1) % 256) (decide (start ≠ 0))
      = (val.val : Int) := by
  obtain ⟨hq, _⟩ := well_behaved_query F stored hF bat start w
  obtain ⟨hs, hst⟩ := well_behaved_mutate F stored hF bat start val w
  rw [set_threshold_ret_ok F bat start val w hq, set_threshold_fw_ok F bat start val w hq]
  refine ⟨?_, hst⟩
  simp [hs]

/-- C12: round trip against a well-behaved firmware.  For every battery index
(so for 1 and 2) and both kinds, `get_threshold` succeeds with some byte `v`;
the `set_threshold` of `v` that follows it succeeds; and the next
`get_threshold` succeeds and stores the same byte `v`, whatever `v` is (0
included).  More generally the `get_threshold` that follows a `set_threshold`
of any byte reads that byte. -/
theorem round_trip {σ : Type} (F : Firmware σ) (stored : σ → Int → Bool → Int)
    (hF : WellBehaved F stored) (bat start : Int) (old old2 : uint8_t) (w : World σ) :
    (get_threshold F bat start old w).ret = 0 ∧
    (set_threshold F bat start (get_threshold F bat start old w).val
        (get_threshold F bat start old w).world).1 = 0 ∧
    (get_threshold F bat start old2
        (set_threshold F bat start (get_threshold F bat start old w).val
          (get_threshold F bat start old w).world).2).ret = 0 ∧
    (get_threshold F bat start old2
        (set_threshold F bat start (get_threshold F bat start old w).val
          (get_threshold F bat start old w).world).2).val
      = (get_threshold F bat start old w).val ∧
    (∀ v : uint8_t,
      (set_threshold F bat start v w).1 = 0 ∧
      (get_threshold F bat start old2 (set_threshold F bat start v w).2).ret = 0 ∧
      (get_threshold F bat start old2 (set_threshold F bat start v w).2).val = v) := by
  have key : ∀ (v : uint8_t) (u : World σ),
      (set_threshold F bat start v u).1 = 0 ∧
      (get_threshold F bat start old2 (set_threshold F bat start v u).2).ret = 0 ∧
      (get_threshold F bat start old2 (set_threshold F bat start v u).2).val = v := by
    intro v u
    obtain ⟨hs, hst⟩ := well_behaved_set F stored hF bat start v u
    obtain ⟨hg, hgv⟩ := well_behaved_get F stored hF bat start old2
      (set_threshold F bat start v u).2
    refine ⟨hs, hg, ?_⟩
    apply Fin.ext
    have hcast : (((get_threshold F bat start old2 (set_threshold F bat start v u).2).val).val
        : Int) = (v.val : Int) := hgv.trans hst
    exact_mod_cast hcast
  obtain ⟨h1, h2, h3⟩ := key (get_threshold F bat start old w).val
    (get_threshold F bat start old w).world
  exact ⟨(well_behaved_get F stored hF bat start old w).1, h1, h2, h3, fun v => key v w⟩

/-- Witness of C12: battery index 1, start threshold, against `byte_firmware`
with every threshold at 80: the first `get_threshold` reads 80 and the
`get_threshold` after the `set_threshold` of that byte reads the same byte. -/
theorem round_trip_witness :
    (get_threshold byte_firmware 1 1 0 (World.init all_80)).val = 80 ∧
    (get_threshold byte_firmware 1 1 0
        (set_threshold byte_firmware 1 1 (get_threshold byte_firmware 1 1 0 (World.init all_80)).val
          (get_threshold byte_firmware 1 1 0 (World.init all_80)).world).2).val
      = (get_threshold byte_firmware 1 1 0 (World.init all_80)).val :=
  ⟨by decide,
   (round_trip byte_firmware byte_stored byte_firmware_well_behaved 1 1 0 0
      (World.init all_80)).2.2.2.1⟩

/-! ## Properties of `main` -/

/-- The function `main` when the first `ioperm` call fails. -/
theorem main_primary_denied {σ : Type} (F : Firmware σ) (perm : Int → Int → Int → Int)
    (atoi : String → Int) (argv : List String) (start0 stop0 : uint8_t) (w : World σ)
    (h : perm 0xB2 0xB2 1 ≠ 0) :
    main F perm atoi argv start0 stop0 w =
      (1, { w with trace := w.trace ++
              [Event.fprintf_stderr "Request IO permissions.\n",
               Event.ioperm 0xB2 0xB2 1 (perm 0xB2 0xB2 1), Event.perror "ioperm"] }) := by
  unfold main ioperm perror fprintf_stderr
  simp only [smapi_port1]
  rw [if_pos h]
  simp

/-- The function `main` when the first `ioperm` call succeeds and the second fails. -/
theorem main_secondary_denied {σ : Type} (F : Firmware σ) (perm : Int → Int → Int → Int)
    (atoi : String → Int) (argv : List String) (start0 stop0 : uint8_t) (w : World σ)
    (h1 : perm 0xB2 0xB2 1 = 0) (h2 : perm 0x4F 0x4F 1 ≠ 0) :
    main F perm atoi argv start0 stop0 w =
      (1, { w with trace := w.trace ++
              [Event.fprintf_stderr "Request IO permissions.\n",
               Event.ioperm 0xB2 0xB2 1 0,
               Event.ioperm 0x4F 0x4F 1 (perm 0x4F 0x4F 1), Event.perror "ioperm"] }) := by
  unfold main ioperm perror fprintf_stderr
  simp only [smapi_port1, smapi_port2]
  rw [if_neg (not_not.mpr h1), if_pos h2, h1]
  simp

/-- The function `main` in set mode with both ports granted. -/
theorem main_set_mode {σ : Type} (F : Firmware σ) (perm : Int → Int → Int → Int)
    (atoi : String → Int) (argv : List String) (start0 stop0 : uint8_t) (w : World σ)
    (hargs : argv.length = 3) (h1 : perm 0xB2 0xB2 1 = 0) (h2 : perm 0x4F 0x4F 1 = 0) :
    main F perm atoi argv start0 stop0 w =
      if (start_set F atoi argv w).1 ≠ 0 then
        (1, errno_perror (-(start_set F atoi argv w).1) "set_threshold"
          (start_set F atoi argv w).2)
      else if (stop_set F atoi argv w).1 ≠ 0 then
        (1, errno_perror (-(stop_set F atoi argv w).1) "set_threshold"
          (stop_set F atoi argv w).2)
      else
        (0, (stop_set F atoi argv w).2) := by
  have hw : (ioperm perm 0x4F 0x4F 1
      (ioperm perm 0xB2 0xB2 1 (fprintf_stderr "Request IO permissions.\n" w)).2).2
        = granted w := by
    unfold ioperm fprintf_stderr granted
    simp [h1, h2]
  have hc3 : (argv.length : Int) = 3 := by omega
  unfold main stop_set start_set
  simp only [smapi_port1, smapi_port2]
  rw [hw]
  simp only [ioperm, h1, h2, hc3, ne_eq, not_true_eq_false, if_false, if_true]
  rw [if_neg (by decide : ¬ ((3 : Int) = 1))]

/-- C14: when `ioperm` fails for the primary port 0xB2, or succeeds for it and
fails for the secondary port 0x4F, `main` returns 1, whatever the argument
list; the firmware has not been called (no request is added to the trace and
the firmware state is unchanged), and all that `main` has done is the message
on `stderr`, the `ioperm` calls up to the failing one, and `perror("ioperm")`. -/
theorem main_transport_unavailable {σ : Type} (F : Firmware σ)
    (perm : Int → Int → Int → Int) (atoi : String → Int) (argv : List String)
    (start0 stop0 : uint8_t) (w : World σ)
    (h : perm 0xB2 0xB2 1 ≠ 0 ∨ perm 0x4F 0x4F 1 ≠ 0) :
    (main F perm atoi argv start0 stop0 w).1 = 1 ∧
    requests (main F perm atoi argv start0 stop0 w).2.trace = requests w.trace ∧
    (main F perm atoi argv start0 stop0 w).2.fw = w.fw ∧
    (main F perm atoi argv start0 stop0 w).2.trace
      = w.trace ++
        (if perm 0xB2 0xB2 1 ≠ 0 then
          [Event.fprintf_stderr "Request IO permissions.\n",
           Event.ioperm 0xB2 0xB2 1 (perm 0xB2 0xB2 1), Event.perror "ioperm"]
        else
          [Event.fprintf_stderr "Request IO permissions.\n",
           Event.ioperm 0xB2 0xB2 1 0,
           Event.ioperm 0x4F 0x4F 1 (perm 0x4F 0x4F 1), Event.perror "ioperm"]) := by
  by_cases h1 : perm 0xB2 0xB2 1 ≠ 0
  · rw [main_primary_denied F perm atoi argv start0 stop0 w h1, if_pos h1]
    refine ⟨rfl, ?_, rfl, rfl⟩
    simp only [requests_append]
    simp [requests]
  · have h1' : perm 0xB2 0xB2 1 = 0 := not_not.mp h1
    have h2 : perm 0x4F 0x4F 1 ≠ 0 := h.resolve_left h1
    rw [main_secondary_denied F perm atoi argv start0 stop0 w h1' h2, if_neg h1]
    refine ⟨rfl, ?_, rfl, rfl⟩
    simp only [requests_append]
    simp [requests]

/-- Witness of C14: with every `ioperm` request refused, and with only the
primary port granted, `main tp_charge 40 80` returns 1 without a firmware
call. -/
theorem main_transport_unavailable_witness :
    (main byte_firmware deny_all atoi_table set_args 0 0 (World.init all_80)).1 = 1 ∧
    requests (main byte_firmware deny_all atoi_table set_args 0 0 (World.init all_80)).2.trace
      = [] ∧
    requests
        (main byte_firmware grant_primary atoi_table set_args 0 0 (World.init all_80)).2.trace
      = [] :=
  ⟨(main_transport_unavailable byte_firmware deny_all atoi_table set_args 0 0
      (World.init all_80) (Or.inl (by decide))).1,
   (main_transport_unavailable byte_firmware deny_all atoi_table set_args 0 0
      (World.init all_80) (Or.inl (by decide))).2.1,
   (main_transport_unavailable byte_firmware grant_primary atoi_table set_args 0 0
      (World.init all_80) (Or.inr (by decide))).2.1⟩

/-- The trace before `set_threshold` is a prefix of the trace after it. -/
theorem set_threshold_trace_prefix {σ : Type} (F : Firmware σ) (bat start : Int)
    (val : uint8_t) (u : World σ) :
    u.trace <+: (set_threshold F bat start val u).2.trace := by
  by_cases hq : query_ok (query_response F bat start u)
  · rw [set_threshold_trace_ok F bat start val u hq]
    exact List.prefix_append _ _
  · rw [(set_threshold_abort F bat start val 0 u hq).2.1]
    exact List.prefix_append _ _

/-- The sub-functions of the requests that `set_threshold` adds. -/
theorem set_threshold_new_ebx {σ : Type} (F : Firmware σ) (bat start : Int)
    (val : uint8_t) (u : World σ) :
    ∀ req ∈ (requests (set_threshold F bat start val u).2.trace).drop (requests u.trace).length,
      req.ebx = (if start ≠ 0 then 0x2116 else 0x211A)
        ∨ req.ebx = (if start ≠ 0 then 0x2117 else 0x211B) := by
  intro req hreq
  rw [set_threshold_new_requests] at hreq
  have hcases : req = query_request bat start ∨
      req = mutate_request bat start val (query_response F bat start u).esi
        (query_response F bat start u).edi := by
    split_ifs at hreq
    · simpa using hreq
    · left
      simpa using hreq
  rcases hcases with h | h
  · left
    rw [h]
    rfl
  · right
    rw [h]
    rfl

/-- Writing to `stderr` adds no request. -/
theorem requests_fprintf_stderr {σ : Type} (msg : String) (u : World σ) :
    requests (fprintf_stderr msg u).trace = requests u.trace := by
  unfold fprintf_stderr
  simp only [requests_append]
  simp [requests]

/-- The statements `errno = v; perror(s);` add no request. -/
theorem requests_errno_perror {σ : Type} (v : Int) (s : String) (u : World σ) :
    requests (errno_perror v s u).trace = requests u.trace := by
  unfold errno_perror
  simp only [requests_append]
  simp [requests]

/-- The preamble of `main` adds no request. -/
theorem requests_granted {σ : Type} (u : World σ) :
    requests (granted u).trace = requests u.trace := by
  unfold granted
  simp only [requests_append]
  simp [requests]

/-- C16: the set mode of `main` (three arguments, both `ioperm` calls
granted).  The call `set_threshold(0, 1, start)` comes first.  If it fails,
`main` returns 1 after `errno = -err; perror("set_threshold")`: the requests of
the run are those of that call, all with the start sub-functions 0x2116 or
0x2117, so none for the stop threshold.  If it succeeds, the call
`set_threshold(0, 0, stop)` is made in the world the first call left (after
the message on `stderr`), its requests have the stop sub-functions 0x211A or
0x211B, and `main` returns 1 if it fails and 0 if it succeeds.  So `main`
returns 0 exactly when both calls succeed. -/
theorem main_set_order {σ : Type} (F : Firmware σ) (perm : Int → Int → Int → Int)
    (atoi : String → Int) (argv : List String) (start0 stop0 : uint8_t) (w : World σ)
    (hargs : argv.length = 3) (h1 : perm 0xB2 0xB2 1 = 0) (h2 : perm 0x4F 0x4F 1 = 0) :
    ((start_set F atoi argv w).1 ≠ 0 →
      (main F perm atoi argv start0 stop0 w).1 = 1 ∧
      (main F perm atoi argv start0 stop0 w).2.trace
        = (start_set F atoi argv w).2.trace ++
          [Event.errno_assign (-(start_set F atoi argv w).1), Event.perror "set_threshold"] ∧
      requests (main F perm atoi argv start0 stop0 w).2.trace
        = requests (start_set F atoi argv w).2.trace ∧
      (∀ req ∈ (requests (main F perm atoi argv start0 stop0 w).2.trace).drop
            (requests w.trace).length,
        req.ebx = 0x2116 ∨ req.ebx = 0x2117)) ∧
    ((start_set F atoi argv w).1 = 0 →
      (main F perm atoi argv start0 stop0 w).1
        = (if (stop_set F atoi argv w).1 ≠ 0 then 1 else 0) ∧
      ((start_set F atoi argv w).2.trace ++ [Event.fprintf_stderr "Set BAT0 stop.\n"])
        <+: (stop_set F atoi argv w).2.trace ∧
      (stop_set F atoi argv w).2.trace <+: (main F perm atoi argv start0 stop0 w).2.trace ∧
      requests (main F perm atoi argv start0 stop0 w).2.trace
        = requests (stop_set F atoi argv w).2.trace ∧
      (∀ req ∈ (requests (start_set F atoi argv w).2.trace).drop (requests w.trace).length,
        req.ebx = 0x2116 ∨ req.ebx = 0x2117) ∧
      (∀ req ∈ (requests (stop_set F atoi argv w).2.trace).drop
            (requests (start_set F atoi argv w).2.trace).length,
        req.ebx = 0x211A ∨ req.ebx = 0x211B)) ∧
    ((main F perm atoi argv start0 stop0 w).1 = 0
      ↔ (start_set F atoi argv w).1 = 0 ∧ (stop_set F atoi argv w).1 = 0) := by
  have hm := main_set_mode F perm atoi argv start0 stop0 w hargs h1 h2
  have hentry : requests (fprintf_stderr "Set BAT0 start.\n" (granted w)).trace
      = requests w.trace := by
    rw [requests_fprintf_stderr, requests_granted]
  have hstart : ∀ req ∈ (requests (start_set F atoi argv w).2.trace).drop
      (requests w.trace).length, req.ebx = 0x2116 ∨ req.ebx = 0x2117 := by
    intro req hreq
    rw [← hentry] at hreq
    have h := set_threshold_new_ebx F 0 1 (to_uint8 (atoi (argv.getD 1 "")))
      (fprintf_stderr "Set BAT0 start.\n" (granted w)) req hreq
    simpa using h
  refine ⟨?_, ?_, ?_⟩
  · intro hne
    rw [hm, if_pos hne]
    have hreq : requests (errno_perror (-(start_set F atoi argv w).1) "set_threshold"
        (start_set F atoi argv w).2).trace = requests (start_set F atoi argv w).2.trace :=
      requests_errno_perror _ _ _
    refine ⟨rfl, rfl, hreq, ?_⟩
    intro req hr
    simp only [] at hr
    rw [hreq] at hr
    exact hstart req hr
  · intro h0
    have hn : ¬ (start_set F atoi argv w).1 ≠ 0 := not_not.mpr h0
    rw [hm, if_neg hn]
    refine ⟨?_, ?_, ?_, ?_, hstart, ?_⟩
    · split_ifs <;> rfl
    · exact set_threshold_trace_prefix F 0 0 (to_uint8 (atoi (argv.getD 2 "")))
        (fprintf_stderr "Set BAT0 stop.\n" (start_set F atoi argv w).2)
    · split_ifs
      · exact List.prefix_append _ _
      · exact List.prefix_refl _
    · split_ifs
      · exact requests_errno_perror _ _ _
      · rfl
    · intro req hreq
      have hpre : requests (fprintf_stderr "Set BAT0 stop.\n" (start_set F atoi argv w).2).trace
          = requests (start_set F atoi argv w).2.trace := requests_fprintf_stderr _ _
      rw [← hpre] at hreq
      have h := set_threshold_new_ebx F 0 0 (to_uint8 (atoi (argv.getD 2 "")))
        (fprintf_stderr "Set BAT0 stop.\n" (start_set F atoi argv w).2) req hreq
      simpa using h
  · rw [hm]
    split_ifs with ha hb
    · simp [ha]
    · have ha' : (start_set F atoi argv w).1 = 0 := not_not.mp ha
      simp [ha', hb]
    · have ha' : (start_set F atoi argv w).1 = 0 := not_not.mp ha
      have hb' : (stop_set F atoi argv w).1 = 0 := not_not.mp hb
      simp [ha', hb']

/-- Witness of C16: `tp_charge 40 80` with both ports granted.  Against a
firmware that answers 0xA6 the start threshold fails and `main` returns 1
with the query for the start threshold as its only request; against
`byte_firmware` both calls succeed and `main` returns 0. -/
theorem main_set_order_witness :
    (main (scripted retry_script) grant_all atoi_table set_args 0 0 (World.init 0)).1 = 1 ∧
    requests (main (scripted retry_script) grant_all atoi_table set_args 0 0
        (World.init 0)).2.trace
      = requests (start_set (scripted retry_script) atoi_table set_args (World.init 0)).2.trace ∧
    (main byte_firmware grant_all atoi_table set_args 0 0 (World.init all_80)).1 = 0 :=
  ⟨((main_set_order (scripted retry_script) grant_all atoi_table set_args 0 0 (World.init 0)
      rfl rfl rfl).1 (by decide)).1,
   ((main_set_order (scripted retry_script) grant_all atoi_table set_args 0 0 (World.init 0)
      rfl rfl rfl).1 (by decide)).2.2.1,
   (main_set_order byte_firmware grant_all atoi_table set_args 0 0 (World.init all_80)
      rfl rfl rfl).2.2.mpr ⟨by decide, by decide⟩⟩

end TpCharge
